import Mathlib

/-
Shallow embedding of the library reservation subsystem of the
Ridwah-Foundation backend (src/modules/library): the `Book` and
`BookRequest` Mongoose documents and the operations of
`bookRequest.service.js` (createRequest, cancelRequest, approveRequest,
rejectRequest, issueBook, returnBook, promoteWaitlist), together with the
pre-save hook of `book.model.js`.

The database is modelled as an association list of books keyed by id plus
a list of book requests in insertion order (Mongo natural order, which is
what `findOne` without a sort and `find` traverse).  Object ids are
natural numbers, dates are natural numbers of milliseconds since the
epoch.  Counters are integers.  Mongoose `save` on a book runs the
pre-save hook (which clamps `availableCopies` to `totalCopies`); `save`
on a request replaces the stored document with the same `_id`.
`updateMany` with a `$inc` modifier is a map over the matching documents.
Socket notifications (`notifyUser`) are fire-and-forget and carry no
state, so they are not part of the model.
-/

namespace Library

/-- `bookType` enum of `book.model.js`. -/
inductive BookType
  | physical
  | digital
  | hybrid
deriving DecidableEq, Repr

/-- `requestType` enum of `bookRequest.model.js`. -/
inductive RequestType
  | borrow
  | download
deriving DecidableEq, Repr

/-- `status` enum of `bookRequest.model.js`. -/
inductive RequestStatus
  | pending
  | approved
  | rejected
  | issued
  | returned
  | waitlisted
  | cancelled
deriving DecidableEq, Repr

/-- String rendering of a status, used in interpolated error messages. -/
def statusToString : RequestStatus → String
  | .pending => "pending"
  | .approved => "approved"
  | .rejected => "rejected"
  | .issued => "issued"
  | .returned => "returned"
  | .waitlisted => "waitlisted"
  | .cancelled => "cancelled"

/-- `physical` sub-document of `book.model.js` (shelfLocation omitted:
it never interacts with the reservation logic). -/
structure PhysicalInfo where
  totalCopies : Int := 0
  availableCopies : Int := 0
deriving DecidableEq, Repr

/-- `digital` sub-document of `book.model.js` (only the `fileUrl` field is
read by the reservation service; empty string is the schema default and is
falsy in the JS guard `!book.digital.fileUrl`). -/
structure DigitalInfo where
  fileUrl : String := ""
deriving DecidableEq, Repr

/-- The fields of a `Book` document read or written by the reservation
service (title/author/reviews/rating fields are omitted: they never
interact with the reservation logic). -/
structure Book where
  bookType : BookType := .physical
  physical : PhysicalInfo := {}
  digital : DigitalInfo := {}
  borrowDurationDays : Nat := 14
  isActive : Bool := true
deriving DecidableEq, Repr

/-- A `BookRequest` document (`bookRequest.model.js`). -/
structure BookRequest where
  id : Nat
  book : Nat
  user : Nat
  requestType : RequestType
  status : RequestStatus := .pending
  approvedBy : Option Nat := none
  approvedAt : Option Nat := none
  rejectedBy : Option Nat := none
  rejectedAt : Option Nat := none
  rejectionReason : String := ""
  issuedBy : Option Nat := none
  issuedAt : Option Nat := none
  dueDate : Option Nat := none
  returnedAt : Option Nat := none
  returnAcceptedBy : Option Nat := none
  waitlistPosition : Option Int := none
  waitlistNotifiedAt : Option Nat := none
  userNote : String := ""
deriving DecidableEq, Repr

/-- The persistent state visible to the reservation service. -/
structure LibraryDB where
  books : List (Nat × Book)
  requests : List BookRequest
deriving DecidableEq, Repr

/-- Errors thrown by the service (`new Error(message)` with a
`statusCode` attached). -/
structure AppError where
  message : String
  statusCode : Nat
deriving DecidableEq, Repr

/-- `Book.findById`. -/
def findBook (db : LibraryDB) (bookId : Nat) : Option Book :=
  (db.books.find? (fun p => p.1 == bookId)).map (fun p => p.2)

/-- `BookRequest.findById`. -/
def findRequest (db : LibraryDB) (requestId : Nat) : Option BookRequest :=
  db.requests.find? (fun r => r.id == requestId)

/-- The part of the `bookSchema.pre("save")` hook that touches the copy
counters: `availableCopies` is silently clamped to `totalCopies` whenever
it exceeds it.  (The same hook also recomputes `averageRating` from the
embedded reviews; those fields are not part of this model.) -/
def bookPreSave (b : Book) : Book :=
  if b.physical.totalCopies < b.physical.availableCopies then
    { b with physical := { b.physical with availableCopies := b.physical.totalCopies } }
  else
    b

/-- `book.save()`: runs the pre-save hook and stores the document under
its id. -/
def saveBook (db : LibraryDB) (bookId : Nat) (b : Book) : LibraryDB :=
  { db with
    books := db.books.map (fun p => if p.1 == bookId then (p.1, bookPreSave b) else p) }

/-- `request.save()`: stores the (mutated) document under its `_id`. -/
def saveRequest (db : LibraryDB) (r : BookRequest) : LibraryDB :=
  { db with
    requests := db.requests.map (fun x => if x.id == r.id then r else x) }

/-- Mongo `$gt` comparison between a stored `waitlistPosition` (possibly
null) and a query value (possibly null): only two numbers compare. -/
def mongoGt (stored : Option Int) (bound : Option Int) : Bool :=
  match stored, bound with
  | some x, some y => decide (y < x)
  | _, _ => false

/-- The `status: { $in: ["pending", "approved", "issued", "waitlisted"] }`
filter of the duplicate-active-request check. -/
def isActiveStatus : RequestStatus → Bool
  | .pending => true
  | .approved => true
  | .issued => true
  | .waitlisted => true
  | _ => false

/-- `promoteWaitlist(bookId)` of `bookRequest.service.js`: finds the
waitlisted request at position 1 (if any), turns it `pending` with its
position cleared and a notified timestamp, then decrements the position of
every remaining waitlisted request for the book by 1. -/
def promoteWaitlist (bookId : Nat) (now : Nat) (db : LibraryDB) : LibraryDB :=
  match db.requests.find? (fun r =>
      r.book == bookId && r.status == RequestStatus.waitlisted
        && r.waitlistPosition == some 1) with
  | none => db
  | some nextInLine =>
    let next1 : BookRequest :=
      { nextInLine with
        status := .pending
        waitlistPosition := none
        waitlistNotifiedAt := some now }
    let db1 := saveRequest db next1
    { db1 with
      requests := db1.requests.map (fun r =>
        if r.book == bookId && r.status == RequestStatus.waitlisted then
          { r with waitlistPosition := r.waitlistPosition.map (fun q => q - 1) }
        else r) }

/-- `createRequest(userId, { bookId, requestType, userNote })`.  `newId`
stands for the fresh `_id` Mongo assigns to the inserted document. -/
def createRequest (userId : Nat) (bookId : Nat) (requestType : RequestType)
    (userNote : String) (newId : Nat) (db : LibraryDB) :
    Except AppError (BookRequest × LibraryDB) :=
  match findBook db bookId with
  | none => .error ⟨"Book not found", 404⟩
  | some book =>
    if book.isActive = false then
      .error ⟨"This book is currently unavailable", 400⟩
    else if requestType = .borrow ∧ book.bookType = .digital then
      .error ⟨"This is a digital-only book. Use download request.", 400⟩
    else if requestType = .download ∧ book.bookType = .physical then
      .error ⟨"This is a physical-only book. Use borrow request.", 400⟩
    else if requestType = .download ∧ book.digital.fileUrl = "" then
      .error ⟨"Digital file is not yet available for this book.", 400⟩
    else
      match db.requests.find? (fun r =>
          r.book == bookId && r.user == userId && isActiveStatus r.status) with
      | some existingRequest =>
        .error ⟨"You already have an active " ++ statusToString existingRequest.status
          ++ " request for this book.", 400⟩
      | none =>
        if requestType = .download then
          let request : BookRequest :=
            { id := newId, book := bookId, user := userId,
              requestType := requestType, userNote := userNote, status := .pending }
          .ok (request, { db with requests := db.requests ++ [request] })
        else
          let isAvailable := 0 < book.physical.availableCopies
          if isAvailable then
            let request : BookRequest :=
              { id := newId, book := bookId, user := userId,
                requestType := requestType, userNote := userNote, status := .pending }
            .ok (request, { db with requests := db.requests ++ [request] })
          else
            let waitlistCount := db.requests.countP (fun r =>
              r.book == bookId && r.status == RequestStatus.waitlisted)
            let request : BookRequest :=
              { id := newId, book := bookId, user := userId,
                requestType := requestType, userNote := userNote,
                status := .waitlisted,
                waitlistPosition := some ((waitlistCount : Int) + 1) }
            .ok (request, { db with requests := db.requests ++ [request] })

/-- `cancelRequest(userId, requestId)`. -/
def cancelRequest (userId : Nat) (requestId : Nat) (db : LibraryDB) :
    Except AppError (String × LibraryDB) :=
  match findRequest db requestId with
  | none => .error ⟨"Request not found", 404⟩
  | some request =>
    if request.user ≠ userId then
      .error ⟨"Not authorized to cancel this request", 403⟩
    else if ¬ (request.status = .pending ∨ request.status = .waitlisted) then
      .error ⟨"Cannot cancel a request with status: "
        ++ statusToString request.status, 400⟩
    else
      let wasWaitlisted := request.status = .waitlisted
      let position := request.waitlistPosition
      let bookId := request.book
      let request1 : BookRequest :=
        { request with
          status := .cancelled
          waitlistPosition := none }
      let db1 := saveRequest db request1
      let db2 :=
        if wasWaitlisted then
          { db1 with
            requests := db1.requests.map (fun r =>
              if r.book == bookId && r.status == RequestStatus.waitlisted
                  && mongoGt r.waitlistPosition position then
                { r with waitlistPosition := r.waitlistPosition.map (fun q => q - 1) }
              else r) }
        else db1
      .ok ("Request cancelled successfully", db2)

/-- `approveRequest(librarianId, requestId)`. -/
def approveRequest (librarianId : Nat) (requestId : Nat) (now : Nat)
    (db : LibraryDB) : Except AppError (BookRequest × LibraryDB) :=
  match findRequest db requestId with
  | none => .error ⟨"Request not found", 404⟩
  | some request =>
    if request.status ≠ .pending then
      .error ⟨"Cannot approve a request with status: "
        ++ statusToString request.status, 400⟩
    else
      let request1 : BookRequest :=
        { request with
          status := .approved
          approvedBy := some librarianId
          approvedAt := some now }
      .ok (request1, saveRequest db request1)

/-- `rejectRequest(librarianId, requestId, rejectionReason)`.  The JS
default `rejectionReason || "No reason provided"` treats the empty string
as absent. -/
def rejectRequest (librarianId : Nat) (requestId : Nat)
    (rejectionReason : String) (now : Nat) (db : LibraryDB) :
    Except AppError (BookRequest × LibraryDB) :=
  match findRequest db requestId with
  | none => .error ⟨"Request not found", 404⟩
  | some request =>
    if ¬ (request.status = .pending ∨ request.status = .approved) then
      .error ⟨"Cannot reject a request with status: "
        ++ statusToString request.status, 400⟩
    else
      let request1 : BookRequest :=
        { request with
          status := .rejected
          rejectedBy := some librarianId
          rejectedAt := some now
          rejectionReason :=
            if rejectionReason = "" then "No reason provided" else rejectionReason }
      .ok (request1, saveRequest db request1)

/-- `issueBook(librarianId, requestId)`.  A dangling book reference would
make the JS crash with a TypeError when reading `book.physical`; that is
modelled as a 500 error. -/
def issueBook (librarianId : Nat) (requestId : Nat) (now : Nat)
    (db : LibraryDB) : Except AppError (BookRequest × LibraryDB) :=
  match findRequest db requestId with
  | none => .error ⟨"Request not found", 404⟩
  | some request =>
    if request.status ≠ .approved then
      .error ⟨"Book can only be issued after approval", 400⟩
    else if request.requestType ≠ .borrow then
      .error ⟨"Issue action is only for physical borrow requests", 400⟩
    else
      match findBook db request.book with
      | none => .error ⟨"TypeError: book is null", 500⟩
      | some book =>
        if book.physical.availableCopies < 1 then
          .error ⟨"No physical copies available to issue", 400⟩
        else
          let book1 : Book :=
            { book with physical :=
              { book.physical with
                availableCopies := book.physical.availableCopies - 1 } }
          let db1 := saveBook db request.book book1
          let issuedAt := now
          let dueDate := issuedAt + book.borrowDurationDays * 24 * 60 * 60 * 1000
          let request1 : BookRequest :=
            { request with
              status := .issued
              issuedBy := some librarianId
              issuedAt := some issuedAt
              dueDate := some dueDate }
          .ok (request1, saveRequest db1 request1)

/-- `returnBook(librarianId, requestId)`. -/
def returnBook (librarianId : Nat) (requestId : Nat) (now : Nat)
    (db : LibraryDB) : Except AppError (BookRequest × LibraryDB) :=
  match findRequest db requestId with
  | none => .error ⟨"Request not found", 404⟩
  | some request =>
    if request.status ≠ .issued then
      .error ⟨"Only issued books can be returned", 400⟩
    else
      match findBook db request.book with
      | none => .error ⟨"TypeError: book is null", 500⟩
      | some book =>
        let book1 : Book :=
          { book with physical :=
            { book.physical with
              availableCopies := book.physical.availableCopies + 1 } }
        let db1 := saveBook db request.book book1
        let request1 : BookRequest :=
          { request with
            status := .returned
            returnedAt := some now
            returnAcceptedBy := some librarianId }
        let db2 := saveRequest db1 request1
        let db3 := promoteWaitlist request.book now db2
        .ok (request1, db3)

/-! ### Invariant definitions -/

/-- A request is a currently-waitlisted request of the given book. -/
def wlMatch (bookId : Nat) (r : BookRequest) : Bool :=
  r.book == bookId && r.status == RequestStatus.waitlisted

/-- Number of waitlisted requests of a book. -/
def wlCount (db : LibraryDB) (bookId : Nat) : Nat :=
  db.requests.countP (wlMatch bookId)

/-- The stored waitlist positions of a book's waitlisted requests. -/
def wlPositions (db : LibraryDB) (bookId : Nat) : List Int :=
  (db.requests.filter (wlMatch bookId)).filterMap (fun r => r.waitlistPosition)

/-- How many waitlisted requests of a book sit at a given position. -/
def wlPosCount (db : LibraryDB) (bookId : Nat) (p : Int) : Nat :=
  db.requests.countP (fun r => wlMatch bookId r && r.waitlistPosition == some p)

/-- The waitlist-contiguity invariant for one book: the multiset of
`waitlistPosition` values of its waitlisted requests is exactly
`{1, …, N}` where `N` is the waitlisted count. -/
def waitlistContiguous (db : LibraryDB) (bookId : Nat) : Prop :=
  List.Perm (wlPositions db bookId)
    ((List.range (wlCount db bookId)).map (fun (i : Nat) => (i : Int) + 1))

instance (db : LibraryDB) (bookId : Nat) : Decidable (waitlistContiguous db bookId) :=
  List.decidablePerm _ _

/-- Request `_id`s are pairwise distinct (Mongo guarantees `_id`
uniqueness per collection). -/
def uniqueIds (db : LibraryDB) : Prop :=
  (db.requests.map (fun r => r.id)).Nodup

instance (db : LibraryDB) : Decidable (uniqueIds db) :=
  List.nodupDecidable _

/-- Number of issued requests of a book. -/
def issuedCount (db : LibraryDB) (bookId : Nat) : Nat :=
  db.requests.countP (fun r => r.book == bookId && r.status == RequestStatus.issued)

/-- The inventory-accounting invariant: every stored book has
`0 ≤ availableCopies` and `availableCopies` plus the number of currently
issued requests within `totalCopies`.  It holds of every state reachable
through the service operations from a request-free state with
`0 ≤ availableCopies ≤ totalCopies`. -/
def invInventory (db : LibraryDB) : Prop :=
  ∀ pr ∈ db.books,
    0 ≤ pr.2.physical.availableCopies ∧
    pr.2.physical.availableCopies + (issuedCount db pr.1 : Int) ≤ pr.2.physical.totalCopies

instance (db : LibraryDB) : Decidable (invInventory db) := by
  unfold invInventory
  exact List.decidableBAll _ _

/-- The counter-bounds invariant of claim C8. -/
def boundsOK (db : LibraryDB) : Prop :=
  ∀ pr ∈ db.books,
    0 ≤ pr.2.physical.availableCopies ∧
    pr.2.physical.availableCopies ≤ pr.2.physical.totalCopies

instance (db : LibraryDB) : Decidable (boundsOK db) := by
  unfold boundsOK
  exact List.decidableBAll _ _

/-- Every issued request is a `borrow` request (claim C10). -/
def issuedImpliesBorrow (db : LibraryDB) : Prop :=
  ∀ r ∈ db.requests, r.status = .issued → r.requestType = .borrow

instance (db : LibraryDB) : Decidable (issuedImpliesBorrow db) := by
  unfold issuedImpliesBorrow
  exact List.decidableBAll _ _

/-- At most one request per (book, user) pair is in a non-terminal
status (claim C6). -/
def atMostOneActive (db : LibraryDB) : Prop :=
  ∀ b u : Nat,
    db.requests.countP (fun r => r.book == b && r.user == u && isActiveStatus r.status) ≤ 1

/-- List-level waitlisted count (the proofs work on raw request lists). -/
def wlCountL (rs : List BookRequest) (b : Nat) : Nat :=
  rs.countP (wlMatch b)

/-- List-level position count. -/
def wlPosCountL (rs : List BookRequest) (b : Nat) (p : Int) : Nat :=
  rs.countP (fun r => wlMatch b r && r.waitlistPosition == some p)

/-- Count form of the contiguity invariant, on a raw request list. -/
def contigCounts (rs : List BookRequest) (b : Nat) : Prop :=
  ∀ p : Int, wlPosCountL rs b p = if 1 ≤ p ∧ p ≤ (wlCountL rs b : Int) then 1 else 0

end Library

namespace Library

/-! ### Generic list lemmas -/

/-- Split a `countP` along a second predicate. -/
theorem countP_split_pred {α : Type} (l : List α) (P Q : α → Bool) :
    l.countP P = l.countP (fun a => P a && Q a) + l.countP (fun a => P a && !Q a) := by
  induction l with
  | nil => rfl
  | cons x xs ih =>
    by_cases hP : P x <;> by_cases hQ : Q x <;>
      simp [List.countP_cons, hP, hQ, ih] <;> omega

/-- Counting a value in a `filterMap` image. -/
theorem count_filterMap_eq {α β : Type} [DecidableEq β] (l : List α)
    (f : α → Option β) (b : β) :
    (l.filterMap f).count b = l.countP (fun a => f a == some b) := by
  induction l with
  | nil => rfl
  | cons x xs ih =>
    cases h : f x with
    | none => simp [List.filterMap_cons, h, List.countP_cons, ih]
    | some y =>
      simp only [List.filterMap_cons, h, List.count_cons, List.countP_cons, ih]
      by_cases hy : y = b <;> simp [hy]

/-- Counting a value in the canonical contiguous list `[1, …, N]`. -/
theorem count_rangeMap (N : Nat) (p : Int) :
    ((List.range N).map (fun (i : Nat) => (i : Int) + 1)).count p
      = if 1 ≤ p ∧ p ≤ (N : Int) then 1 else 0 := by
  induction N with
  | zero =>
    simp only [List.range_zero, List.map_nil, List.count_nil]
    split <;> omega
  | succ n ih =>
    rw [List.range_succ, List.map_append, List.count_append, ih]
    have hone : List.count p (List.map (fun (i : Nat) => (i : Int) + 1) [n])
        = if p = (n : Int) + 1 then 1 else 0 := by
      by_cases h : p = (n : Int) + 1 <;> simp [List.count_cons, h]
    rw [hone]
    push_cast
    split_ifs <;> omega

/-- If a `filterMap` keeps the full length, the function is `some`
everywhere on the list. -/
theorem filterMap_full_length {α β : Type} (l : List α) (f : α → Option β)
    (h : (l.filterMap f).length = l.length) : ∀ a ∈ l, (f a).isSome := by
  induction l with
  | nil => intro a ha; cases ha
  | cons x xs ih =>
    intro a ha
    cases hx : f x with
    | none =>
      exfalso
      rw [List.filterMap_cons, hx] at h
      have := List.length_filterMap_le f xs
      simp at h
      omega
    | some y =>
      rcases List.mem_cons.mp ha with rfl | ha'
      · simp [hx]
      · apply ih _ a ha'
        rw [List.filterMap_cons, hx] at h
        simpa using h

/-- Replacing the unique element with a given id changes a `countP` by
swapping that element's contribution for the replacement's. -/
theorem countP_replace (rs : List BookRequest)
    (hnd : (rs.map (fun r => r.id)).Nodup)
    (req newr : BookRequest) (hmem : req ∈ rs) (P : BookRequest → Bool) :
    (rs.map (fun x => if x.id == req.id then newr else x)).countP P
      + (if P req then 1 else 0)
      = rs.countP P + (if P newr then 1 else 0) := by
  induction rs with
  | nil => cases hmem
  | cons a t ih =>
    simp only [List.map_cons, List.nodup_cons] at hnd
    rcases hnd with ⟨ha, hnd⟩
    rcases List.mem_cons.mp hmem with rfl | hmem'
    · have htail : t.map (fun x => if x.id == req.id then newr else x) = t := by
        conv_rhs => rw [← List.map_id t]
        apply List.map_congr_left
        intro x hx
        have hxi : x.id ≠ req.id := by
          intro hcontra
          exact ha (hcontra ▸ List.mem_map.mpr ⟨x, hx, rfl⟩)
        simp [hxi]
      simp only [List.map_cons, beq_self_eq_true, if_true, htail, List.countP_cons]
      by_cases hq : P req <;> by_cases hn : P newr <;> simp [hq, hn] <;> omega
    · have hne : (a.id == req.id) = false := by
        apply beq_eq_false_iff_ne.mpr
        intro hcontra
        exact ha (hcontra ▸ List.mem_map.mpr ⟨req, hmem', rfl⟩)
      simp only [List.map_cons, hne, if_false, List.countP_cons]
      have := ih hnd hmem'
      by_cases hq : P req <;> by_cases hn : P newr <;> by_cases hp : P a <;>
        simp [hq, hn, hp] at this ⊢ <;> omega

/-- `find?` by id commutes with an id-preserving map. -/
theorem find_id_map (rs : List BookRequest) (F : BookRequest → BookRequest)
    (hF : ∀ r, (F r).id = r.id) (i : Nat) :
    (rs.map F).find? (fun r => r.id == i) = (rs.find? (fun r => r.id == i)).map F := by
  rw [List.find?_map]
  have : ((fun r : BookRequest => r.id == i) ∘ F) = (fun r : BookRequest => r.id == i) := by
    funext r
    simp [Function.comp, hF]
  rw [this]

/-- With pairwise-distinct ids, any member sharing the id of a found
request is that request. -/
theorem mem_id_eq (rs : List BookRequest) (hnd : (rs.map (fun r => r.id)).Nodup)
    (r1 r2 : BookRequest) (h1 : r1 ∈ rs) (h2 : r2 ∈ rs) (hid : r1.id = r2.id) :
    r1 = r2 :=
  List.inj_on_of_nodup_map hnd h1 h2 hid

/-- A positive `countP` from a witnessing member. -/
theorem countP_ge_one {α : Type} (l : List α) (P : α → Bool) (a : α)
    (ha : a ∈ l) (hP : P a) : 1 ≤ l.countP P := by
  have := List.countP_pos_iff.mpr ⟨a, ha, hP⟩
  omega

/-! ### The contiguity invariant, characterised by position counts -/

/-- The multiset of stored positions counts positions the same way
`wlPosCount` does. -/
theorem wlPositions_count (db : LibraryDB) (b : Nat) (p : Int) :
    (wlPositions db b).count p = wlPosCount db b p := by
  unfold wlPositions wlPosCount
  rw [count_filterMap_eq]
  rw [List.countP_filter]
  apply List.countP_congr
  intro r _
  constructor
  · intro h
    simp only [Bool.and_eq_true] at h ⊢
    exact ⟨h.2, h.1⟩
  · intro h
    simp only [Bool.and_eq_true] at h ⊢
    exact ⟨h.2, h.1⟩

/-- Contiguity gives the exact position counts. -/
theorem contig_counts (db : LibraryDB) (b : Nat) (h : waitlistContiguous db b) :
    ∀ p : Int, wlPosCount db b p
      = if 1 ≤ p ∧ p ≤ (wlCount db b : Int) then 1 else 0 := by
  intro p
  have hc := List.perm_iff_count.mp h p
  rw [wlPositions_count, count_rangeMap] at hc
  exact hc

/-- Exact position counts give contiguity. -/
theorem contig_of_counts (db : LibraryDB) (b : Nat)
    (h : ∀ p : Int, wlPosCount db b p
      = if 1 ≤ p ∧ p ≤ (wlCount db b : Int) then 1 else 0) :
    waitlistContiguous db b := by
  apply List.perm_iff_count.mpr
  intro p
  rw [wlPositions_count, count_rangeMap]
  exact h p

/-- Under contiguity every waitlisted request stores a position. -/
theorem contig_allSome (db : LibraryDB) (b : Nat) (h : waitlistContiguous db b) :
    ∀ r ∈ db.requests, wlMatch b r → r.waitlistPosition.isSome := by
  have hlen := h.length_eq
  have hlen2 : (wlPositions db b).length
      = (db.requests.filter (wlMatch b)).length := by
    rw [hlen]
    simp only [List.length_map, List.length_range]
    unfold wlCount
    rw [List.countP_eq_length_filter]
  intro r hr hm
  exact filterMap_full_length _ _ hlen2 r (List.mem_filter.mpr ⟨hr, hm⟩)

/-! ### Success-path unfoldings of the operations -/

/-- `cancelRequest` on an owned waitlisted request: the explicit shape of
the resulting state. -/
theorem cancelRequest_run_waitlisted (userId requestId : Nat) (db : LibraryDB)
    (request : BookRequest)
    (hfind : findRequest db requestId = some request)
    (huser : request.user = userId)
    (hst : request.status = .waitlisted) :
    cancelRequest userId requestId db = .ok ("Request cancelled successfully",
      { books := db.books
        requests := (db.requests.map (fun x =>
            if x.id == request.id then
              { request with
                status := .cancelled
                waitlistPosition := none } else x)).map
          (fun r =>
            if r.book == request.book && r.status == RequestStatus.waitlisted
                && mongoGt r.waitlistPosition request.waitlistPosition then
              { r with waitlistPosition := r.waitlistPosition.map (fun q => q - 1) }
            else r) }) := by
  unfold cancelRequest
  rw [hfind]
  simp [huser, hst, saveRequest]

/-- `cancelRequest` on an owned pending request. -/
theorem cancelRequest_run_pending (userId requestId : Nat) (db : LibraryDB)
    (request : BookRequest)
    (hfind : findRequest db requestId = some request)
    (huser : request.user = userId)
    (hst : request.status = .pending) :
    cancelRequest userId requestId db = .ok ("Request cancelled successfully",
      { books := db.books
        requests := db.requests.map (fun x =>
            if x.id == request.id then
              { request with
                status := .cancelled
                waitlistPosition := none } else x) }) := by
  unfold cancelRequest
  rw [hfind]
  simp [huser, hst, saveRequest]

/-- `approveRequest` on a pending request. -/
theorem approveRequest_run (librarianId requestId now : Nat) (db : LibraryDB)
    (request : BookRequest)
    (hfind : findRequest db requestId = some request)
    (hst : request.status = .pending) :
    approveRequest librarianId requestId now db =
      .ok ({ request with
              status := .approved
              approvedBy := some librarianId
              approvedAt := some now },
        { books := db.books
          requests := db.requests.map (fun x =>
            if x.id == request.id then
              { request with
                status := .approved
                approvedBy := some librarianId
                approvedAt := some now } else x) }) := by
  unfold approveRequest
  rw [hfind]
  simp [hst, saveRequest]

/-- `rejectRequest` on a pending or approved request. -/
theorem rejectRequest_run (librarianId requestId now : Nat) (reason : String)
    (db : LibraryDB) (request : BookRequest)
    (hfind : findRequest db requestId = some request)
    (hst : request.status = .pending ∨ request.status = .approved) :
    rejectRequest librarianId requestId reason now db =
      .ok ({ request with
              status := .rejected
              rejectedBy := some librarianId
              rejectedAt := some now
              rejectionReason :=
                if reason = "" then "No reason provided" else reason },
        { books := db.books
          requests := db.requests.map (fun x =>
            if x.id == request.id then
              { request with
                status := .rejected
                rejectedBy := some librarianId
                rejectedAt := some now
                rejectionReason :=
                  if reason = "" then "No reason provided" else reason } else x) }) := by
  unfold rejectRequest
  rw [hfind]
  simp [hst, saveRequest]

/-- `issueBook` on an approved borrow request with a unit available. -/
theorem issueBook_run (librarianId requestId now : Nat) (db : LibraryDB)
    (request : BookRequest) (book : Book)
    (hfind : findRequest db requestId = some request)
    (hst : request.status = .approved)
    (hty : request.requestType = .borrow)
    (hbook : findBook db request.book = some book)
    (havail : 1 ≤ book.physical.availableCopies) :
    issueBook librarianId requestId now db =
      .ok ({ request with
              status := .issued
              issuedBy := some librarianId
              issuedAt := some now
              dueDate := some (now + book.borrowDurationDays * 24 * 60 * 60 * 1000) },
        { books := db.books.map (fun p =>
            if p.1 == request.book then
              (p.1, bookPreSave { book with physical :=
                { book.physical with
                  availableCopies := book.physical.availableCopies - 1 } })
            else p)
          requests := db.requests.map (fun x =>
            if x.id == request.id then
              { request with
                status := .issued
                issuedBy := some librarianId
                issuedAt := some now
                dueDate := some (now + book.borrowDurationDays * 24 * 60 * 60 * 1000) }
            else x) }) := by
  unfold issueBook
  rw [hfind]
  have h1 : ¬ request.status ≠ RequestStatus.approved := by simp [hst]
  have h2 : ¬ request.requestType ≠ RequestType.borrow := by simp [hty]
  have h3 : ¬ book.physical.availableCopies < 1 := by omega
  simp only [h1, if_false, h2, hbook, h3, saveBook, saveRequest]

/-- `returnBook` on an issued request: the resulting state before
promotion is explicit, promotion is applied on top. -/
theorem returnBook_run (librarianId requestId now : Nat) (db : LibraryDB)
    (request : BookRequest) (book : Book)
    (hfind : findRequest db requestId = some request)
    (hst : request.status = .issued)
    (hbook : findBook db request.book = some book) :
    returnBook librarianId requestId now db =
      .ok ({ request with
              status := .returned
              returnedAt := some now
              returnAcceptedBy := some librarianId },
        promoteWaitlist request.book now
          { books := db.books.map (fun p =>
              if p.1 == request.book then
                (p.1, bookPreSave { book with physical :=
                  { book.physical with
                    availableCopies := book.physical.availableCopies + 1 } })
              else p)
            requests := db.requests.map (fun x =>
              if x.id == request.id then
                { request with
                  status := .returned
                  returnedAt := some now
                  returnAcceptedBy := some librarianId }
              else x) }) := by
  unfold returnBook
  rw [hfind]
  have h1 : ¬ request.status ≠ RequestStatus.issued := by simp [hst]
  simp only [h1, if_false, hbook, saveBook, saveRequest]

/-- `createRequest` for `borrow` with no copies available: waitlist entry. -/
theorem createRequest_run_waitlist (userId bookId newId : Nat) (userNote : String)
    (db : LibraryDB) (book : Book)
    (hbook : findBook db bookId = some book)
    (hactive : book.isActive = true)
    (hbt : book.bookType ≠ .digital)
    (hdup : db.requests.find? (fun r =>
      r.book == bookId && r.user == userId && isActiveStatus r.status) = none)
    (havail : book.physical.availableCopies ≤ 0) :
    createRequest userId bookId .borrow userNote newId db =
      .ok ({ id := newId, book := bookId, user := userId,
             requestType := .borrow, userNote := userNote,
             status := .waitlisted,
             waitlistPosition := some ((wlCount db bookId : Int) + 1) },
        { books := db.books
          requests := db.requests ++
            [{ id := newId, book := bookId, user := userId,
               requestType := .borrow, userNote := userNote,
               status := .waitlisted,
               waitlistPosition := some ((wlCount db bookId : Int) + 1) }] }) := by
  unfold createRequest
  rw [hbook]
  have h0 : ¬ book.isActive = false := by simp [hactive]
  have h1 : ¬ (RequestType.borrow = RequestType.borrow ∧ book.bookType = BookType.digital) := by
    simp [hbt]
  have h2 : ¬ (RequestType.borrow = RequestType.download ∧ book.bookType = BookType.physical) := by
    simp
  have h3 : ¬ (RequestType.borrow = RequestType.download ∧ book.digital.fileUrl = "") := by
    simp
  have h4 : ¬ (RequestType.borrow = RequestType.download) := by simp
  have h5 : ¬ (0 < book.physical.availableCopies) := by omega
  simp only [h0, if_false, h1, h2, h3, hdup, h4, h5, if_true]
  simp [hactive, hbt, wlCount]
  rfl

/-- `createRequest` for `borrow` with a copy available: pending. -/
theorem createRequest_run_pending (userId bookId newId : Nat) (userNote : String)
    (db : LibraryDB) (book : Book)
    (hbook : findBook db bookId = some book)
    (hactive : book.isActive = true)
    (hbt : book.bookType ≠ .digital)
    (hdup : db.requests.find? (fun r =>
      r.book == bookId && r.user == userId && isActiveStatus r.status) = none)
    (havail : 0 < book.physical.availableCopies) :
    createRequest userId bookId .borrow userNote newId db =
      .ok ({ id := newId, book := bookId, user := userId,
             requestType := .borrow, userNote := userNote,
             status := .pending },
        { books := db.books
          requests := db.requests ++
            [{ id := newId, book := bookId, user := userId,
               requestType := .borrow, userNote := userNote,
               status := .pending }] }) := by
  unfold createRequest
  rw [hbook]
  have h0 : ¬ book.isActive = false := by simp [hactive]
  have h1 : ¬ (RequestType.borrow = RequestType.borrow ∧ book.bookType = BookType.digital) := by
    simp [hbt]
  have h2 : ¬ (RequestType.borrow = RequestType.download ∧ book.bookType = BookType.physical) := by
    simp
  have h3 : ¬ (RequestType.borrow = RequestType.download ∧ book.digital.fileUrl = "") := by
    simp
  have h4 : ¬ (RequestType.borrow = RequestType.download) := by simp
  simp only [h0, if_false, h1, h2, h3, hdup, h4, havail, if_true]
  simp [hactive, hbt, havail]

/-- `createRequest` for `download` on a book with a digital file: pending. -/
theorem createRequest_run_download (userId bookId newId : Nat) (userNote : String)
    (db : LibraryDB) (book : Book)
    (hbook : findBook db bookId = some book)
    (hactive : book.isActive = true)
    (hbt : book.bookType ≠ .physical)
    (hfile : book.digital.fileUrl ≠ "")
    (hdup : db.requests.find? (fun r =>
      r.book == bookId && r.user == userId && isActiveStatus r.status) = none) :
    createRequest userId bookId .download userNote newId db =
      .ok ({ id := newId, book := bookId, user := userId,
             requestType := .download, userNote := userNote,
             status := .pending },
        { books := db.books
          requests := db.requests ++
            [{ id := newId, book := bookId, user := userId,
               requestType := .download, userNote := userNote,
               status := .pending }] }) := by
  unfold createRequest
  rw [hbook]
  have h0 : ¬ book.isActive = false := by simp [hactive]
  have h1 : ¬ (RequestType.download = RequestType.borrow ∧ book.bookType = BookType.digital) := by
    simp
  have h2 : ¬ (RequestType.download = RequestType.download ∧ book.bookType = BookType.physical) := by
    simp [hbt]
  have h3 : ¬ (RequestType.download = RequestType.download ∧ book.digital.fileUrl = "") := by
    simp [hfile]
  simp only [h0, if_false, h1, h2, h3, hdup, if_true]
  simp [hactive, hbt, hfile]

/-- `createRequest` rejects a duplicate active request. -/
theorem createRequest_run_duplicate (userId bookId newId : Nat)
    (requestType : RequestType) (userNote : String)
    (db : LibraryDB) (book : Book) (existing : BookRequest)
    (hbook : findBook db bookId = some book)
    (hactive : book.isActive = true)
    (hg1 : ¬ (requestType = .borrow ∧ book.bookType = .digital))
    (hg2 : ¬ (requestType = .download ∧ book.bookType = .physical))
    (hg3 : ¬ (requestType = .download ∧ book.digital.fileUrl = ""))
    (hdup : db.requests.find? (fun r =>
      r.book == bookId && r.user == userId && isActiveStatus r.status) = some existing) :
    createRequest userId bookId requestType userNote newId db =
      .error ⟨"You already have an active " ++ statusToString existing.status
        ++ " request for this book.", 400⟩ := by
  unfold createRequest
  rw [hbook]
  have h0 : ¬ book.isActive = false := by simp [hactive]
  simp only [h0, if_false, hg1, hg2, hg3, hdup]
  simp [hactive, hg1, hg2, hg3]

/-- The database-level invariant coincides with the count form. -/
theorem contig_iff_counts (db : LibraryDB) (b : Nat) :
    waitlistContiguous db b ↔ contigCounts db.requests b := by
  constructor
  · intro h p
    exact contig_counts db b h p
  · intro h
    exact contig_of_counts db b h

/-- `countP` of a disjunction of incompatible predicates. -/
theorem countP_or_disjoint {α : Type} (l : List α) (X Y : α → Bool)
    (h : ∀ a ∈ l, ¬(X a = true ∧ Y a = true)) :
    l.countP (fun a => X a || Y a) = l.countP X + l.countP Y := by
  induction l with
  | nil => rfl
  | cons x xs ih =>
    have hx := h x (List.mem_cons_self x xs)
    have ih' := ih (fun a ha => h a (List.mem_cons_of_mem x ha))
    by_cases hX : X x <;> by_cases hY : Y x
    · exact absurd ⟨hX, hY⟩ hx
    · simp [List.countP_cons, hX, hY, ih']
      omega
    · simp [List.countP_cons, hX, hY, ih']
      omega
    · simp [List.countP_cons, hX, hY, ih']

/-- A map that only rewrites `waitlistPosition` leaves the waitlisted
count of every book unchanged. -/
theorem wlCountL_map_posOnly (rs : List BookRequest) (B : Nat)
    (g : BookRequest → BookRequest)
    (hg : ∀ r, (g r).book = r.book ∧ (g r).status = r.status) :
    wlCountL (rs.map g) B = wlCountL rs B := by
  unfold wlCountL
  rw [List.countP_map]
  apply List.countP_congr
  intro r _
  unfold wlMatch Function.comp
  simp only [Bool.and_eq_true, beq_iff_eq, (hg r).1, (hg r).2]

/-- Position counts across the unconditional decrement map used by
`promoteWaitlist`. -/
theorem decAll_counts (rs : List BookRequest) (b B : Nat) (p : Int) :
    wlPosCountL (rs.map (fun r =>
      if r.book == b && r.status == RequestStatus.waitlisted then
        { r with waitlistPosition := r.waitlistPosition.map (fun q => q - 1) }
      else r)) B p
    = if B = b then wlPosCountL rs B (p + 1) else wlPosCountL rs B p := by
  unfold wlPosCountL
  rw [List.countP_map]
  by_cases hb : B = b
  · subst hb
    rw [if_pos rfl]
    apply List.countP_congr
    intro r _
    unfold Function.comp wlMatch
    simp only []
    by_cases hw : (r.book == B && r.status == RequestStatus.waitlisted) = true
    · rw [if_pos hw]
      simp only [Bool.and_eq_true, beq_iff_eq] at hw ⊢
      cases hq : r.waitlistPosition with
      | none => simp [hw]
      | some q =>
        simp only [hq, Option.map_some', Option.some.injEq, hw, true_and,
          and_true, decide_eq_true_eq]
        constructor
        · intro h1; omega
        · intro h1; omega
    · rw [if_neg hw]
      simp only [Bool.and_eq_true] at hw ⊢
      constructor
      · rintro ⟨⟨hb1, hs1⟩, hp1⟩
        exact absurd ⟨hb1, hs1⟩ hw
      · rintro ⟨⟨hb1, hs1⟩, hp1⟩
        exact absurd ⟨hb1, hs1⟩ hw
  · rw [if_neg hb]
    apply List.countP_congr
    intro r _
    unfold Function.comp wlMatch
    simp only []
    by_cases hw : (r.book == b && r.status == RequestStatus.waitlisted) = true
    · rw [if_pos hw]
      simp only [Bool.and_eq_true, beq_iff_eq] at hw
      have : (r.book == B) = false := by
        simp only [beq_eq_false_iff_ne]
        rw [hw.1]
        exact fun h => hb h.symm
      simp [this]
    · rw [if_neg hw]

/-- Position counts across the guarded decrement map used by
`cancelRequest` on a waitlisted request cancelled at position `k`. -/
theorem decGt_counts (rs : List BookRequest) (b : Nat) (k : Int) (B : Nat) (p : Int) :
    wlPosCountL (rs.map (fun r =>
      if r.book == b && r.status == RequestStatus.waitlisted
          && mongoGt r.waitlistPosition (some k) then
        { r with waitlistPosition := r.waitlistPosition.map (fun q => q - 1) }
      else r)) B p
    = if B = b then
        (if p < k then wlPosCountL rs B p
         else if p = k then wlPosCountL rs B k + wlPosCountL rs B (k + 1)
         else wlPosCountL rs B (p + 1))
      else wlPosCountL rs B p := by
  unfold wlPosCountL
  rw [List.countP_map]
  by_cases hb : B = b
  · subst hb
    rw [if_pos rfl]
    by_cases hpk : p < k
    · rw [if_pos hpk]
      apply List.countP_congr
      intro r _
      unfold Function.comp wlMatch
      simp only []
      by_cases hg : (r.book == B && r.status == RequestStatus.waitlisted
          && mongoGt r.waitlistPosition (some k)) = true
      · rw [if_pos hg]
        simp only [Bool.and_eq_true, beq_iff_eq] at hg
        rcases hg with ⟨⟨hbk, hst⟩, hgt⟩
        cases hq : r.waitlistPosition with
        | none => rw [hq] at hgt; simp [mongoGt] at hgt
        | some q =>
          rw [hq] at hgt
          simp only [mongoGt, decide_eq_true_eq] at hgt
          simp only [hq, Option.map_some', hbk, hst, Option.some.injEq,
            Bool.and_eq_true, beq_iff_eq]
          constructor
          · rintro ⟨-, h2⟩; omega
          · rintro ⟨-, h2⟩; omega
      · rw [if_neg hg]
    · by_cases hpk2 : p = k
      · subst hpk2
        rw [if_neg hpk, if_pos rfl]
        have hsplit : List.countP (fun r =>
            wlMatch B r && r.waitlistPosition == some p) rs
            + List.countP (fun r =>
              wlMatch B r && r.waitlistPosition == some (p + 1)) rs
          = List.countP (fun r =>
              (wlMatch B r && r.waitlistPosition == some p)
              || (wlMatch B r && r.waitlistPosition == some (p + 1))) rs := by
          rw [countP_or_disjoint]
          intro r _
          simp only [Bool.and_eq_true, beq_iff_eq]
          rintro ⟨⟨-, h1⟩, ⟨-, h2⟩⟩
          rw [h1] at h2
          simp only [Option.some.injEq] at h2
          omega
        rw [hsplit]
        apply List.countP_congr
        intro r _
        unfold Function.comp wlMatch
        simp only []
        by_cases hg : (r.book == B && r.status == RequestStatus.waitlisted
            && mongoGt r.waitlistPosition (some p)) = true
        · rw [if_pos hg]
          simp only [Bool.and_eq_true, beq_iff_eq] at hg
          rcases hg with ⟨⟨hbk, hst⟩, hgt⟩
          cases hq : r.waitlistPosition with
          | none => rw [hq] at hgt; simp [mongoGt] at hgt
          | some q =>
            rw [hq] at hgt
            simp only [mongoGt, decide_eq_true_eq] at hgt
            simp only [hq, Option.map_some', hbk, hst, Option.some.injEq,
              Bool.and_eq_true, beq_iff_eq, Bool.or_eq_true, true_and]
            constructor
            · intro h1
              right
              omega
            · rintro (h1 | h1) <;> omega
        · rw [if_neg hg]
          simp only [Bool.and_eq_true, beq_iff_eq] at hg
          simp only [Bool.and_eq_true, beq_iff_eq, Bool.or_eq_true]
          constructor
          · intro h1
            exact Or.inl h1
          · rintro (h1 | h1)
            · exact h1
            · exfalso
              rcases h1 with ⟨⟨hbk, hst⟩, hp1⟩
              apply hg
              refine ⟨⟨hbk, hst⟩, ?_⟩
              rw [hp1]
              simp only [mongoGt, decide_eq_true_eq]
              omega
      · rw [if_neg hpk, if_neg hpk2]
        apply List.countP_congr
        intro r _
        unfold Function.comp wlMatch
        simp only []
        by_cases hg : (r.book == B && r.status == RequestStatus.waitlisted
            && mongoGt r.waitlistPosition (some k)) = true
        · rw [if_pos hg]
          simp only [Bool.and_eq_true, beq_iff_eq] at hg
          rcases hg with ⟨⟨hbk, hst⟩, hgt⟩
          cases hq : r.waitlistPosition with
          | none => rw [hq] at hgt; simp [mongoGt] at hgt
          | some q =>
            rw [hq] at hgt
            simp only [mongoGt, decide_eq_true_eq] at hgt
            simp only [hq, Option.map_some', hbk, hst, Option.some.injEq,
              Bool.and_eq_true, beq_iff_eq, true_and]
            constructor
            · intro h1; omega
            · intro h1; omega
        · rw [if_neg hg]
          simp only [Bool.and_eq_true, beq_iff_eq] at hg
          simp only [Bool.and_eq_true, beq_iff_eq]
          constructor
          · rintro ⟨⟨hbk, hst⟩, hp1⟩
            exfalso
            apply hg
            refine ⟨⟨hbk, hst⟩, ?_⟩
            rw [hp1]
            simp only [mongoGt, decide_eq_true_eq]
            omega
          · rintro ⟨⟨hbk, hst⟩, hp1⟩
            exfalso
            apply hg
            refine ⟨⟨hbk, hst⟩, ?_⟩
            rw [hp1]
            simp only [mongoGt, decide_eq_true_eq]
            omega
  · rw [if_neg hb]
    apply List.countP_congr
    intro r _
    unfold Function.comp wlMatch
    simp only []
    by_cases hg : (r.book == b && r.status == RequestStatus.waitlisted
        && mongoGt r.waitlistPosition (some k)) = true
    · rw [if_pos hg]
      simp only [Bool.and_eq_true, beq_iff_eq] at hg
      have hBr : (r.book == B) = false := by
        simp only [beq_eq_false_iff_ne]
        rw [hg.1.1]
        exact fun h => hb h.symm
      simp [hBr]
    · rw [if_neg hg]

/-- Cancelling a waitlisted request (status flip plus renumbering of the
strictly greater positions) preserves waitlist contiguity for every book. -/
theorem cancel_preserves_contig (db : LibraryDB) (request : BookRequest) (k : Int)
    (hnd : uniqueIds db) (hmem : request ∈ db.requests)
    (hst : request.status = .waitlisted)
    (hposk : request.waitlistPosition = some k)
    (B : Nat) (hB : waitlistContiguous db B) :
    waitlistContiguous
      { books := db.books
        requests := (db.requests.map (fun x =>
            if x.id == request.id then
              { request with
                status := .cancelled
                waitlistPosition := none } else x)).map
          (fun r =>
            if r.book == request.book && r.status == RequestStatus.waitlisted
                && mongoGt r.waitlistPosition request.waitlistPosition then
              { r with waitlistPosition := r.waitlistPosition.map (fun q => q - 1) }
            else r) } B := by
  rw [contig_iff_counts] at hB ⊢
  simp only [hposk]
  intro p
  have hgpos : ∀ r : BookRequest,
      ((fun r =>
        if r.book == request.book && r.status == RequestStatus.waitlisted
            && mongoGt r.waitlistPosition (some k) then
          { r with waitlistPosition := r.waitlistPosition.map (fun q => q - 1) }
        else r) r).book = r.book ∧
      ((fun r =>
        if r.book == request.book && r.status == RequestStatus.waitlisted
            && mongoGt r.waitlistPosition (some k) then
          { r with waitlistPosition := r.waitlistPosition.map (fun q => q - 1) }
        else r) r).status = r.status := by
    intro r
    by_cases h : (r.book == request.book && r.status == RequestStatus.waitlisted
        && mongoGt r.waitlistPosition (some k)) = true <;> simp [h]
  show wlPosCountL _ B p = _
  rw [decGt_counts]
  rw [wlCountL_map_posOnly _ _ _ hgpos]
  -- relate the replace stage to the original list
  have hrepP : ∀ p' : Int,
      wlPosCountL (db.requests.map (fun x =>
        if x.id == request.id then
          { request with
            status := .cancelled
            waitlistPosition := none } else x)) B p'
        + (if k = p' ∧ wlMatch B request = true then 1 else 0)
      = wlPosCountL db.requests B p' := by
    intro p'
    have e := countP_replace db.requests hnd request
      { request with status := .cancelled, waitlistPosition := none } hmem
      (fun r => wlMatch B r && r.waitlistPosition == some p')
    simp only [] at e
    unfold wlPosCountL
    have hreq1 : (wlMatch B { request with
          status := RequestStatus.cancelled, waitlistPosition := none }
        && ({ request with
              status := RequestStatus.cancelled,
              waitlistPosition := none } : BookRequest).waitlistPosition
           == some p') = false := by
      simp [wlMatch]
    rw [hreq1, if_neg Bool.false_ne_true] at e
    by_cases hw : wlMatch B request = true
    · have hP : (wlMatch B request && request.waitlistPosition == some p')
          = ((some k : Option Int) == some p') := by
        rw [hw, hposk, Bool.true_and]
      rw [hP] at e
      by_cases hkp : k = p'
      · rw [if_pos ⟨hkp, hw⟩]
        have hkk : ((some k : Option Int) == some p') = true := by
          subst hkp
          exact beq_self_eq_true _
        rw [hkk, if_pos rfl] at e
        omega
      · rw [if_neg (fun hc => hkp hc.1)]
        have hkk : ((some k : Option Int) == some p') = false := by
          simpa using hkp
        rw [hkk, if_neg Bool.false_ne_true] at e
        omega
    · have hwf : wlMatch B request = false := by
        cases hq : wlMatch B request
        · rfl
        · exact absurd hq hw
      have hP : (wlMatch B request && request.waitlistPosition == some p') = false := by
        rw [hwf, Bool.false_and]
      rw [hP, if_neg Bool.false_ne_true] at e
      rw [if_neg (fun hc => hw hc.2)]
      omega
  have hrepN :
      wlCountL (db.requests.map (fun x =>
        if x.id == request.id then
          { request with
            status := .cancelled
            waitlistPosition := none } else x)) B
        + (if wlMatch B request = true then 1 else 0)
      = wlCountL db.requests B := by
    have e := countP_replace db.requests hnd request
      { request with status := .cancelled, waitlistPosition := none } hmem (wlMatch B)
    simp only [] at e
    unfold wlCountL
    have hreq1 : wlMatch B { request with
        status := RequestStatus.cancelled, waitlistPosition := none } = false := by
      simp [wlMatch]
    rw [hreq1, if_neg Bool.false_ne_true] at e
    by_cases hw : wlMatch B request = true
    · rw [hw, if_pos rfl] at e
      rw [if_pos hw]
      omega
    · have hwf : wlMatch B request = false := by
        cases hq : wlMatch B request
        · rfl
        · exact absurd hq hw
      rw [hwf, if_neg Bool.false_ne_true] at e
      rw [if_neg hw]
      omega
  by_cases hb : B = request.book
  · rw [if_pos hb]
    have hwl : wlMatch B request = true := by
      unfold wlMatch
      rw [hb, hst]
      simp
    -- the cancelled position is inside the contiguous range
    have hk1 : 1 ≤ wlPosCountL db.requests B k := by
      apply countP_ge_one _ _ request hmem
      rw [hwl, hposk]
      simp
    have hkrange : 1 ≤ k ∧ k ≤ (wlCountL db.requests B : Int) := by
      have := hB k
      by_cases hr : 1 ≤ k ∧ k ≤ (wlCountL db.requests B : Int)
      · exact hr
      · rw [if_neg hr] at this
        omega
    have eN := hrepN
    rw [if_pos hwl] at eN
    by_cases hp1 : p < k
    · rw [if_pos hp1]
      have e1 := hrepP p
      rw [if_neg (fun hc => by omega : ¬ (k = p ∧ wlMatch B request = true))] at e1
      have i1 := hB p
      split_ifs at i1 ⊢ <;> omega
    · by_cases hp2 : p = k
      · subst hp2
        rw [if_neg hp1, if_pos rfl]
        have e3 := hrepP p
        rw [if_pos ⟨rfl, hwl⟩] at e3
        have e4 := hrepP (p + 1)
        rw [if_neg (fun hc => by omega : ¬ (p = p + 1 ∧ wlMatch B request = true))] at e4
        have i3 := hB p
        rw [if_pos hkrange] at i3
        have i4 := hB (p + 1)
        split_ifs at i4 ⊢ <;> omega
      · rw [if_neg hp1, if_neg hp2]
        have e2 := hrepP (p + 1)
        rw [if_neg (fun hc => by omega : ¬ (k = p + 1 ∧ wlMatch B request = true))] at e2
        have i2 := hB (p + 1)
        split_ifs at i2 ⊢ <;> omega
  · rw [if_neg hb]
    have hwf : wlMatch B request = false := by
      unfold wlMatch
      have : (request.book == B) = false := by
        simp only [beq_eq_false_iff_ne]
        exact fun h => hb h.symm
      simp [this]
    have e1 := hrepP p
    have eN := hrepN
    rw [if_neg (by simp [hwf])] at eN
    simp only [hwf, Bool.false_eq_true, and_false, if_false] at e1
    have i1 := hB p
    split_ifs at i1 ⊢ <;> omega

/-- An id-preserving map keeps the id multiset, hence id uniqueness. -/
theorem ids_map_preserved (rs : List BookRequest) (F : BookRequest → BookRequest)
    (hF : ∀ r, (F r).id = r.id) :
    (rs.map F).map (fun r => r.id) = rs.map (fun r => r.id) := by
  rw [List.map_map]
  apply List.map_congr_left
  intro r _
  exact hF r

/-- Replacing one non-waitlisted request by another non-waitlisted one
does not change any position count. -/
theorem wlPosCountL_replace_nonwl (rs : List BookRequest)
    (hnd : (rs.map (fun r => r.id)).Nodup)
    (req newr : BookRequest) (hmem : req ∈ rs)
    (hso : req.status ≠ .waitlisted) (hsn : newr.status ≠ .waitlisted)
    (B : Nat) (p : Int) :
    wlPosCountL (rs.map (fun x => if x.id == req.id then newr else x)) B p
      = wlPosCountL rs B p := by
  have e := countP_replace rs hnd req newr hmem
    (fun r => wlMatch B r && r.waitlistPosition == some p)
  simp only [] at e
  have h1 : (wlMatch B req && req.waitlistPosition == some p) = false := by
    unfold wlMatch
    have : (req.status == RequestStatus.waitlisted) = false := by
      simp [hso]
    simp [this]
  have h2 : (wlMatch B newr && newr.waitlistPosition == some p) = false := by
    unfold wlMatch
    have : (newr.status == RequestStatus.waitlisted) = false := by
      simp [hsn]
    simp [this]
  rw [h1, h2] at e
  unfold wlPosCountL
  omega

/-- Replacing one non-waitlisted request by another non-waitlisted one
does not change the waitlisted count. -/
theorem wlCountL_replace_nonwl (rs : List BookRequest)
    (hnd : (rs.map (fun r => r.id)).Nodup)
    (req newr : BookRequest) (hmem : req ∈ rs)
    (hso : req.status ≠ .waitlisted) (hsn : newr.status ≠ .waitlisted)
    (B : Nat) :
    wlCountL (rs.map (fun x => if x.id == req.id then newr else x)) B
      = wlCountL rs B := by
  have e := countP_replace rs hnd req newr hmem (wlMatch B)
  simp only [] at e
  have h1 : wlMatch B req = false := by
    unfold wlMatch
    have : (req.status == RequestStatus.waitlisted) = false := by
      simp [hso]
    simp [this]
  have h2 : wlMatch B newr = false := by
    unfold wlMatch
    have : (newr.status == RequestStatus.waitlisted) = false := by
      simp [hsn]
    simp [this]
  rw [h1, h2] at e
  unfold wlCountL
  omega

/-- `promoteWaitlist` never touches the book collection. -/
theorem promoteWaitlist_books (bookId now : Nat) (db : LibraryDB) :
    (promoteWaitlist bookId now db).books = db.books := by
  unfold promoteWaitlist
  cases h : db.requests.find? (fun r =>
      r.book == bookId && r.status == RequestStatus.waitlisted
        && r.waitlistPosition == some 1) with
  | none => rfl
  | some nx => rfl

/-- Replacing a waitlisted request at position `k` by a non-waitlisted
document removes exactly that position's contribution. -/
theorem wlPosCountL_replace_wl (rs : List BookRequest)
    (hnd : (rs.map (fun r => r.id)).Nodup)
    (req : BookRequest) (k : Int) (newr : BookRequest)
    (hmem : req ∈ rs) (hst : req.status = .waitlisted)
    (hpos : req.waitlistPosition = some k)
    (hnew : newr.status ≠ .waitlisted) (B : Nat) (p : Int) :
    wlPosCountL (rs.map (fun x => if x.id == req.id then newr else x)) B p
      + (if k = p ∧ wlMatch B req = true then 1 else 0)
    = wlPosCountL rs B p := by
  have e := countP_replace rs hnd req newr hmem
    (fun r => wlMatch B r && r.waitlistPosition == some p)
  simp only [] at e
  have h2 : (wlMatch B newr && newr.waitlistPosition == some p) = false := by
    unfold wlMatch
    have : (newr.status == RequestStatus.waitlisted) = false := by
      simp [hnew]
    simp [this]
  rw [h2] at e
  unfold wlPosCountL
  by_cases hw : wlMatch B req = true
  · have hP : (wlMatch B req && req.waitlistPosition == some p)
        = ((some k : Option Int) == some p) := by
      rw [hw, hpos, Bool.true_and]
    rw [hP] at e
    by_cases hkp : k = p
    · rw [if_pos ⟨hkp, hw⟩]
      have hkk : ((some k : Option Int) == some p) = true := by
        subst hkp
        exact beq_self_eq_true _
      rw [hkk] at e
      try rw [if_pos rfl] at e
      try rw [if_neg Bool.false_ne_true] at e
      omega
    · rw [if_neg (fun hc => hkp hc.1)]
      have hkk : ((some k : Option Int) == some p) = false := by
        simpa using hkp
      rw [hkk] at e
      try rw [if_neg Bool.false_ne_true] at e
      omega
  · have hwf : wlMatch B req = false := by
      cases hq : wlMatch B req
      · rfl
      · exact absurd hq hw
    have hP : (wlMatch B req && req.waitlistPosition == some p) = false := by
      rw [hwf, Bool.false_and]
    rw [hP] at e
    try rw [if_neg Bool.false_ne_true] at e
    rw [if_neg (fun hc => hw hc.2)]
    omega

/-- Replacing a waitlisted request by a non-waitlisted document drops the
waitlisted count by exactly its own contribution. -/
theorem wlCountL_replace_wl (rs : List BookRequest)
    (hnd : (rs.map (fun r => r.id)).Nodup)
    (req newr : BookRequest)
    (hmem : req ∈ rs) (hst : req.status = .waitlisted)
    (hnew : newr.status ≠ .waitlisted) (B : Nat) :
    wlCountL (rs.map (fun x => if x.id == req.id then newr else x)) B
      + (if wlMatch B req = true then 1 else 0)
    = wlCountL rs B := by
  have e := countP_replace rs hnd req newr hmem (wlMatch B)
  simp only [] at e
  have h2 : wlMatch B newr = false := by
    unfold wlMatch
    have : (newr.status == RequestStatus.waitlisted) = false := by
      simp [hnew]
    simp [this]
  rw [h2] at e
  unfold wlCountL
  by_cases hw : wlMatch B req = true
  · rw [hw] at e
    try rw [if_pos rfl] at e
    try rw [if_neg Bool.false_ne_true] at e
    rw [if_pos hw]
    omega
  · have hwf : wlMatch B req = false := by
      cases hq : wlMatch B req
      · rfl
      · exact absurd hq hw
    rw [hwf] at e
    try rw [if_neg Bool.false_ne_true] at e
    rw [if_neg hw]
    omega

/-- `promoteWaitlist` when nobody is at position 1. -/
theorem promoteWaitlist_none (b now : Nat) (db : LibraryDB)
    (hfind : db.requests.find? (fun r =>
      r.book == b && r.status == RequestStatus.waitlisted
        && r.waitlistPosition == some 1) = none) :
    promoteWaitlist b now db = db := by
  unfold promoteWaitlist
  rw [hfind]

/-- `promoteWaitlist` when the head of the waitlist is found: explicit
shape of the result. -/
theorem promoteWaitlist_apply (b now : Nat) (db : LibraryDB) (nx : BookRequest)
    (hfind : db.requests.find? (fun r =>
      r.book == b && r.status == RequestStatus.waitlisted
        && r.waitlistPosition == some 1) = some nx) :
    promoteWaitlist b now db =
      { books := db.books
        requests := (db.requests.map (fun x =>
            if x.id == nx.id then
              { nx with
                status := .pending
                waitlistPosition := none
                waitlistNotifiedAt := some now } else x)).map
          (fun r =>
            if r.book == b && r.status == RequestStatus.waitlisted then
              { r with waitlistPosition := r.waitlistPosition.map (fun q => q - 1) }
            else r) } := by
  unfold promoteWaitlist
  rw [hfind]
  simp [saveRequest]

/-- `promoteWaitlist` preserves waitlist contiguity for every book. -/
theorem promote_preserves_contig (b now : Nat) (db : LibraryDB)
    (hnd : uniqueIds db) (B : Nat) (hB : waitlistContiguous db B) :
    waitlistContiguous (promoteWaitlist b now db) B := by
  cases hfind : db.requests.find? (fun r =>
      r.book == b && r.status == RequestStatus.waitlisted
        && r.waitlistPosition == some 1) with
  | none =>
    rw [promoteWaitlist_none b now db hfind]
    exact hB
  | some nx =>
    rw [promoteWaitlist_apply b now db nx hfind]
    have hmem := List.mem_of_find?_eq_some hfind
    have hpred := List.find?_some hfind
    simp only [Bool.and_eq_true, beq_iff_eq] at hpred
    rcases hpred with ⟨⟨hnb, hnst⟩, hnpos⟩
    rw [contig_iff_counts] at hB ⊢
    intro p
    show wlPosCountL _ B p = _
    have hgpos : ∀ r : BookRequest,
        ((fun r =>
          if r.book == b && r.status == RequestStatus.waitlisted then
            { r with waitlistPosition := r.waitlistPosition.map (fun q => q - 1) }
          else r) r).book = r.book ∧
        ((fun r =>
          if r.book == b && r.status == RequestStatus.waitlisted then
            { r with waitlistPosition := r.waitlistPosition.map (fun q => q - 1) }
          else r) r).status = r.status := by
      intro r
      by_cases h : (r.book == b && r.status == RequestStatus.waitlisted) = true <;>
        simp [h]
    rw [decAll_counts]
    rw [wlCountL_map_posOnly _ _ _ hgpos]
    have hrepP := wlPosCountL_replace_wl db.requests hnd nx 1
      { nx with
        status := .pending
        waitlistPosition := none
        waitlistNotifiedAt := some now } hmem hnst hnpos (by simp) B
    have hrepN := wlCountL_replace_wl db.requests hnd nx
      { nx with
        status := .pending
        waitlistPosition := none
        waitlistNotifiedAt := some now } hmem hnst (by simp) B
    by_cases hb : B = b
    · rw [if_pos hb]
      have hwl : wlMatch B nx = true := by
        unfold wlMatch
        rw [hb, hnb, hnst]
        simp
      rw [if_pos hwl] at hrepN
      have hone : 1 ≤ wlPosCountL db.requests B 1 := by
        apply countP_ge_one _ _ nx hmem
        rw [hwl, hnpos]
        simp
      have hNge : 1 ≤ (wlCountL db.requests B : Int) := by
        have := hB 1
        by_cases hr : 1 ≤ (1 : Int) ∧ (1 : Int) ≤ (wlCountL db.requests B : Int)
        · exact hr.2
        · rw [if_neg hr] at this
          omega
      have e2 := hrepP (p + 1)
      have i2 := hB (p + 1)
      by_cases hp0 : (1 : Int) = p + 1
      · rw [if_pos ⟨hp0, hwl⟩] at e2
        split_ifs at i2 ⊢ <;> omega
      · rw [if_neg (fun hc => hp0 hc.1)] at e2
        split_ifs at i2 ⊢ <;> omega
    · rw [if_neg hb]
      have hwf : wlMatch B nx = false := by
        unfold wlMatch
        have : (nx.book == B) = false := by
          simp only [beq_eq_false_iff_ne]
          rw [hnb]
          exact fun h => hb h.symm
        simp [this]
      have e1 := hrepP p
      rw [if_neg (fun hc => by rw [hwf] at hc; exact Bool.false_ne_true hc.2)] at e1
      rw [if_neg (by simp [hwf])] at hrepN
      have i1 := hB p
      split_ifs at i1 ⊢ <;> omega

/-- Appending a non-waitlisted request preserves contiguity everywhere. -/
theorem contig_append_nonwl (db : LibraryDB) (bs : List (Nat × Book))
    (req : BookRequest) (hst : req.status ≠ .waitlisted)
    (B : Nat) (hB : waitlistContiguous db B) :
    waitlistContiguous { books := bs, requests := db.requests ++ [req] } B := by
  rw [contig_iff_counts] at hB ⊢
  intro p
  show wlPosCountL _ B p = _
  have hwf : wlMatch B req = false := by
    unfold wlMatch
    have : (req.status == RequestStatus.waitlisted) = false := by
      simp [hst]
    simp [this]
  unfold wlPosCountL wlCountL
  rw [List.countP_append, List.countP_append]
  have h1 : List.countP (fun r => wlMatch B r && r.waitlistPosition == some p) [req] = 0 := by
    simp [List.countP_cons, hwf]
  have h2 : List.countP (wlMatch B) [req] = 0 := by
    simp [List.countP_cons, hwf]
  rw [h1, h2]
  have := hB p
  unfold wlPosCountL wlCountL at this
  simpa using this

/-- Appending a waitlisted request at position `count + 1` (the enqueue of
`createRequest`) preserves contiguity everywhere. -/
theorem contig_append_wl (db : LibraryDB) (bs : List (Nat × Book))
    (req : BookRequest) (hst : req.status = .waitlisted)
    (hpos : req.waitlistPosition = some ((wlCountL db.requests req.book : Int) + 1))
    (B : Nat) (hB : waitlistContiguous db B) :
    waitlistContiguous { books := bs, requests := db.requests ++ [req] } B := by
  rw [contig_iff_counts] at hB ⊢
  intro p
  show wlPosCountL _ B p = _
  unfold wlPosCountL wlCountL
  rw [List.countP_append, List.countP_append]
  by_cases hb : B = req.book
  · have hwl : wlMatch B req = true := by
      unfold wlMatch
      rw [hb, hst]
      simp
    have h2 : List.countP (wlMatch B) [req] = 1 := by
      simp [List.countP_cons, hwl]
    rw [h2]
    have i1 := hB p
    unfold wlPosCountL wlCountL at i1
    rw [hb] at i1 hwl ⊢
    by_cases hp : p = (wlCountL db.requests req.book : Int) + 1
    · have h1 : List.countP (fun r => wlMatch req.book r
          && r.waitlistPosition == some p) [req] = 1 := by
        have : (req.waitlistPosition == some p) = true := by
          rw [hpos, hp]
          simp
        simp [List.countP_cons, hwl, this, hb]
      rw [h1]
      unfold wlCountL at hp
      split_ifs at i1 ⊢ <;> push_cast <;> omega
    · have h1 : List.countP (fun r => wlMatch req.book r
          && r.waitlistPosition == some p) [req] = 0 := by
        have : (req.waitlistPosition == some p) = false := by
          rw [hpos]
          simpa using fun hc => hp hc.symm
        simp [List.countP_cons, this]
      rw [h1]
      unfold wlCountL at hp
      split_ifs at i1 ⊢ <;> push_cast <;> omega
  · have hwf : wlMatch B req = false := by
      unfold wlMatch
      have : (req.book == B) = false := by
        simp only [beq_eq_false_iff_ne]
        exact fun h => hb h.symm
      simp [this]
    have h1 : List.countP (fun r => wlMatch B r && r.waitlistPosition == some p) [req] = 0 := by
      simp [List.countP_cons, hwf]
    have h2 : List.countP (wlMatch B) [req] = 0 := by
      simp [List.countP_cons, hwf]
    rw [h1, h2]
    have := hB p
    unfold wlPosCountL wlCountL at this
    simpa using this

/-- Unpacking `findRequest`. -/
theorem findRequest_mem (db : LibraryDB) (i : Nat) (r : BookRequest)
    (h : findRequest db i = some r) : r ∈ db.requests ∧ r.id = i := by
  unfold findRequest at h
  refine ⟨List.mem_of_find?_eq_some h, ?_⟩
  have := List.find?_some h
  simpa using this

/-- Replacing a non-waitlisted request by a non-waitlisted request
preserves contiguity. -/
theorem contig_replace_nonwl (db : LibraryDB) (bs : List (Nat × Book))
    (hnd : uniqueIds db) (req newr : BookRequest) (hmem : req ∈ db.requests)
    (hso : req.status ≠ .waitlisted) (hsn : newr.status ≠ .waitlisted)
    (B : Nat) (hB : waitlistContiguous db B) :
    waitlistContiguous
      { books := bs
        requests := db.requests.map (fun x => if x.id == req.id then newr else x) } B := by
  rw [contig_iff_counts] at hB ⊢
  intro p
  show wlPosCountL _ B p = _
  rw [wlPosCountL_replace_nonwl db.requests hnd req newr hmem hso hsn B p]
  rw [wlCountL_replace_nonwl db.requests hnd req newr hmem hso hsn B]
  exact hB p

/-- Any successful `createRequest` preserves contiguity for all books. -/
theorem create_ok_contig (userId bookId newId : Nat) (requestType : RequestType)
    (userNote : String) (db : LibraryDB) (req : BookRequest) (db' : LibraryDB)
    (h : createRequest userId bookId requestType userNote newId db = .ok (req, db'))
    (hB : ∀ B, waitlistContiguous db B) :
    ∀ B, waitlistContiguous db' B := by
  intro B
  unfold createRequest at h
  split at h
  · exact Except.noConfusion h
  · rename_i book heq
    split at h
    · exact Except.noConfusion h
    split at h
    · exact Except.noConfusion h
    split at h
    · exact Except.noConfusion h
    split at h
    · exact Except.noConfusion h
    split at h
    · exact Except.noConfusion h
    · rename_i hdup
      split at h
      · simp only [Except.ok.injEq, Prod.mk.injEq] at h
        obtain ⟨h5, h6⟩ := h
        subst h6
        exact contig_append_nonwl db db.books _ (by simp) B (hB B)
      · dsimp only [] at h
        split at h
        · simp only [Except.ok.injEq, Prod.mk.injEq] at h
          obtain ⟨h5, h6⟩ := h
          subst h6
          exact contig_append_nonwl db db.books _ (by simp) B (hB B)
        · simp only [Except.ok.injEq, Prod.mk.injEq] at h
          obtain ⟨h5, h6⟩ := h
          subst h6
          exact contig_append_wl db db.books _ rfl rfl B (hB B)

/-- Any successful `cancelRequest` preserves contiguity for all books. -/
theorem cancel_ok_contig (userId requestId : Nat) (db : LibraryDB)
    (msg : String) (db' : LibraryDB) (hnd : uniqueIds db)
    (h : cancelRequest userId requestId db = .ok (msg, db'))
    (hB : ∀ B, waitlistContiguous db B) :
    ∀ B, waitlistContiguous db' B := by
  intro B
  unfold cancelRequest at h
  split at h
  · exact Except.noConfusion h
  · rename_i request heq
    split at h
    · exact Except.noConfusion h
    split at h
    · exact Except.noConfusion h
    · rename_i huser hsts
      obtain ⟨hmem, hid⟩ := findRequest_mem db requestId request heq
      dsimp only [saveRequest] at h
      rcases not_not.mp hsts with hpend | hwl
      · rw [if_neg (by rw [hpend]; exact fun hc => RequestStatus.noConfusion hc)] at h
        simp only [Except.ok.injEq, Prod.mk.injEq] at h
        obtain ⟨h1, h2⟩ := h
        subst h2
        exact contig_replace_nonwl db db.books hnd request _ hmem
          (by rw [hpend]; exact fun hc => RequestStatus.noConfusion hc) (by simp) B (hB B)
      · have hps := contig_allSome db request.book (hB request.book) request hmem
          (by unfold wlMatch; rw [hwl]; simp)
        obtain ⟨k, hk⟩ := Option.isSome_iff_exists.mp hps
        rw [if_pos hwl] at h
        simp only [Except.ok.injEq, Prod.mk.injEq] at h
        obtain ⟨h1, h2⟩ := h
        subst h2
        exact cancel_preserves_contig db request k hnd hmem hwl hk B (hB B)

/-- Any successful `returnBook` preserves contiguity for all books. -/
theorem return_ok_contig (librarianId requestId now : Nat) (db : LibraryDB)
    (res : BookRequest) (db' : LibraryDB) (hnd : uniqueIds db)
    (h : returnBook librarianId requestId now db = .ok (res, db'))
    (hB : ∀ B, waitlistContiguous db B) :
    ∀ B, waitlistContiguous db' B := by
  intro B
  unfold returnBook at h
  split at h
  · exact Except.noConfusion h
  · rename_i request heq
    split at h
    · exact Except.noConfusion h
    · rename_i hst
      split at h
      · exact Except.noConfusion h
      · rename_i book hfb
        obtain ⟨hmem, hid⟩ := findRequest_mem db requestId request heq
        dsimp only [saveRequest, saveBook] at h
        simp only [Except.ok.injEq, Prod.mk.injEq] at h
        obtain ⟨h1, h2⟩ := h
        subst h2
        have hsteq : request.status = .issued := not_not.mp hst
        apply promote_preserves_contig
        · unfold uniqueIds
          dsimp only []
          rw [ids_map_preserved]
          · exact hnd
          · intro r
            by_cases hr : (r.id == request.id) = true
            · rw [if_pos hr]
              exact (beq_iff_eq.mp hr).symm
            · rw [if_neg hr]
        · apply contig_replace_nonwl db _ hnd request _ hmem
          · rw [hsteq]
            exact fun hc => RequestStatus.noConfusion hc
          · exact fun hc => RequestStatus.noConfusion hc
          · exact hB B

/-- A book with no waitlisted request is trivially contiguous. -/
theorem contig_of_all_false (db : LibraryDB) (B : Nat)
    (hall : ∀ r ∈ db.requests, wlMatch B r = false) :
    waitlistContiguous db B := by
  unfold waitlistContiguous wlPositions wlCount
  have hf : db.requests.filter (wlMatch B) = [] := by
    rw [List.filter_eq_nil]
    intro a ha
    rw [hall a ha]
    exact Bool.false_ne_true
  have hc : db.requests.countP (wlMatch B) = 0 := by
    rw [List.countP_eq_length_filter, hf]
    rfl
  rw [hf, hc]
  exact List.Perm.refl _

/-- Claim C1: for every Resource at every reachable state, the waitlisted
positions form exactly `{1, …, N}` (N the waitlisted count), and this
contiguity is preserved by every successful run of the operations that
touch the waitlist: `createRequest` (enqueue), `cancelRequest` (dequeue
renumbering) and `returnBook` (promotion step). -/
theorem claim_C1_waitlist_contiguity :
    (∀ (userId bookId newId : Nat) (requestType : RequestType) (userNote : String)
        (db : LibraryDB) (req : BookRequest) (db' : LibraryDB),
      createRequest userId bookId requestType userNote newId db = .ok (req, db') →
      (∀ B, waitlistContiguous db B) → ∀ B, waitlistContiguous db' B) ∧
    (∀ (userId requestId : Nat) (db : LibraryDB) (msg : String) (db' : LibraryDB),
      uniqueIds db →
      cancelRequest userId requestId db = .ok (msg, db') →
      (∀ B, waitlistContiguous db B) → ∀ B, waitlistContiguous db' B) ∧
    (∀ (librarianId requestId now : Nat) (db : LibraryDB)
        (res : BookRequest) (db' : LibraryDB),
      uniqueIds db →
      returnBook librarianId requestId now db = .ok (res, db') →
      (∀ B, waitlistContiguous db B) → ∀ B, waitlistContiguous db' B) := by
  refine ⟨?_, ?_, ?_⟩
  · intro userId bookId newId requestType userNote db req db' h hB
    exact create_ok_contig userId bookId newId requestType userNote db req db' h hB
  · intro userId requestId db msg db' hnd h hB
    exact cancel_ok_contig userId requestId db msg db' hnd h hB
  · intro librarianId requestId now db res db' hnd h hB
    exact return_ok_contig librarianId requestId now db res db' hnd h hB

/-- Witness for C1: the three conjuncts applied to concrete one-book
states (an enqueue into an empty waitlist, a cancel of the only
waitlisted request, and a return with an empty waitlist). -/
theorem claim_C1_witness :
    (∀ B, waitlistContiguous
      { books := [(1, { bookType := BookType.physical
                        physical := { totalCopies := 1, availableCopies := 0 } })]
        requests := [{ id := 5, book := 1, user := 3, requestType := RequestType.borrow
                       status := RequestStatus.waitlisted, waitlistPosition := some 1 }] } B) ∧
    (∀ B, waitlistContiguous
      { books := [(1, { bookType := BookType.physical
                        physical := { totalCopies := 1, availableCopies := 0 } })]
        requests := [{ id := 1, book := 1, user := 2, requestType := RequestType.borrow
                       status := RequestStatus.cancelled }] } B) ∧
    (∀ B, waitlistContiguous
      { books := [(1, { bookType := BookType.physical
                        physical := { totalCopies := 1, availableCopies := 1 } })]
        requests := [{ id := 1, book := 1, user := 2, requestType := RequestType.borrow
                       status := RequestStatus.returned, returnedAt := some 0
                       returnAcceptedBy := some 9 }] } B) := by
  refine ⟨?_, ?_, ?_⟩
  · exact claim_C1_waitlist_contiguity.1 3 1 5 .borrow "" 
      { books := [(1, { bookType := BookType.physical
                        physical := { totalCopies := 1, availableCopies := 0 } })]
        requests := [] }
      { id := 5, book := 1, user := 3, requestType := RequestType.borrow
        status := RequestStatus.waitlisted, waitlistPosition := some 1 }
      _ (by rfl)
      (fun B => contig_of_all_false _ B (by intro r hr; simp at hr))
  · exact claim_C1_waitlist_contiguity.2.1 2 1
      { books := [(1, { bookType := BookType.physical
                        physical := { totalCopies := 1, availableCopies := 0 } })]
        requests := [{ id := 1, book := 1, user := 2, requestType := RequestType.borrow
                       status := RequestStatus.waitlisted, waitlistPosition := some 1 }] }
      "Request cancelled successfully" _ (by decide) (by rfl)
      (by
        intro B
        by_cases hb : B = 1
        · subst hb
          decide
        · apply contig_of_all_false
          intro r hr
          simp only [List.mem_singleton] at hr
          subst hr
          unfold wlMatch
          have h1 : ((1 : Nat) == B) = false := by
            simp only [beq_eq_false_iff_ne]
            exact fun hc => hb hc.symm
          simp [h1])
  · exact claim_C1_waitlist_contiguity.2.2 9 1 0
      { books := [(1, { bookType := BookType.physical
                        physical := { totalCopies := 1, availableCopies := 0 } })]
        requests := [{ id := 1, book := 1, user := 2, requestType := RequestType.borrow
                       status := RequestStatus.issued }] }
      { id := 1, book := 1, user := 2, requestType := RequestType.borrow
        status := RequestStatus.returned, returnedAt := some 0
        returnAcceptedBy := some 9 }
      _ (by decide) (by rfl)
      (by
        intro B
        apply contig_of_all_false
        intro r hr
        simp only [List.mem_singleton] at hr
        subst hr
        unfold wlMatch
        simp)

/-- In a map by an id-preserving function, the element carrying a member's
id is that member's image. -/
theorem mem_map_unique (rs : List BookRequest)
    (hnd : (rs.map (fun r => r.id)).Nodup)
    (F : BookRequest → BookRequest) (hF : ∀ r, (F r).id = r.id)
    (r : BookRequest) (hr : r ∈ rs) (r' : BookRequest) (hr' : r' ∈ rs.map F)
    (hid : r'.id = r.id) : r' = F r := by
  obtain ⟨r0, hr0, rfl⟩ := List.mem_map.mp hr'
  have h0 : r0.id = r.id := by
    rw [← hF r0]
    exact hid
  rw [mem_id_eq rs hnd r0 r hr0 hr h0]

/-- `findRequest` through an id-preserving map of the request list. -/
theorem findRequest_through_map (db : LibraryDB) (bs : List (Nat × Book))
    (F : BookRequest → BookRequest) (hF : ∀ r, (F r).id = r.id) (i : Nat) :
    findRequest { books := bs, requests := db.requests.map F } i
      = (findRequest db i).map F := by
  unfold findRequest
  exact find_id_map db.requests F hF i

/-- Claim C5: cancelling one's own waitlisted Reservation at position k
cancels it, clears its position, decrements every strictly greater
position for the same Resource by exactly 1, leaves positions at most k
(and positions of other Resources) unchanged, changes no other status,
and leaves the book collection — in particular `availableCopies` —
untouched. -/
theorem claim_C5_cancel_waitlisted (userId requestId : Nat) (db : LibraryDB)
    (request : BookRequest) (k : Int)
    (hnd : uniqueIds db)
    (hfind : findRequest db requestId = some request)
    (huser : request.user = userId)
    (hst : request.status = .waitlisted)
    (hpos : request.waitlistPosition = some k) :
    ∃ db', cancelRequest userId requestId db
        = .ok ("Request cancelled successfully", db') ∧
      db'.books = db.books ∧
      findRequest db' requestId
        = some { request with status := .cancelled, waitlistPosition := none } ∧
      (∀ r ∈ db.requests, r.id ≠ requestId →
        ∀ r' ∈ db'.requests, r'.id = r.id →
          r'.status = r.status ∧
          (r.book = request.book → r.status = .waitlisted →
            ∀ q, r.waitlistPosition = some q →
              r'.waitlistPosition = some (if k < q then q - 1 else q)) ∧
          (¬(r.book = request.book ∧ r.status = .waitlisted) →
            r'.waitlistPosition = r.waitlistPosition)) := by
  obtain ⟨hmem, hid⟩ := findRequest_mem db requestId request hfind
  have hrun := cancelRequest_run_waitlisted userId requestId db request hfind huser hst
  have hmm := List.map_map
    (fun r : BookRequest =>
      if r.book == request.book && r.status == RequestStatus.waitlisted
          && mongoGt r.waitlistPosition request.waitlistPosition then
        { r with waitlistPosition := r.waitlistPosition.map (fun q => q - 1) }
      else r)
    (fun x : BookRequest =>
      if x.id == request.id then
        { request with
          status := .cancelled
          waitlistPosition := none } else x)
    db.requests
  have hdecid : ∀ x : BookRequest,
      ((if x.book == request.book && x.status == RequestStatus.waitlisted
          && mongoGt x.waitlistPosition request.waitlistPosition then
        { x with waitlistPosition := x.waitlistPosition.map (fun q => q - 1) }
      else x) : BookRequest).id = x.id := by
    intro x
    split <;> rfl
  have hFid : ∀ x : BookRequest,
      (((fun r : BookRequest =>
        if r.book == request.book && r.status == RequestStatus.waitlisted
            && mongoGt r.waitlistPosition request.waitlistPosition then
          { r with waitlistPosition := r.waitlistPosition.map (fun q => q - 1) }
        else r) ∘ (fun x : BookRequest =>
          if x.id == request.id then
            { request with
              status := .cancelled
              waitlistPosition := none } else x)) x).id = x.id := by
    intro x
    unfold Function.comp
    rw [hdecid]
    show (if x.id == request.id then ({ request with
        status := RequestStatus.cancelled
        waitlistPosition := none } : BookRequest) else x).id = x.id
    by_cases h1 : (x.id == request.id) = true
    · rw [if_pos h1]
      exact (beq_iff_eq.mp h1).symm
    · rw [if_neg h1]
  refine ⟨_, hrun, rfl, ?_, ?_⟩
  · rw [hmm]
    rw [findRequest_through_map db db.books _ hFid requestId]
    rw [hfind]
    simp only [Option.map_some']
    congr 1
    unfold Function.comp
    simp only [beq_self_eq_true, if_true]
    split
    · rename_i hcond
      simp at hcond
    · rfl
  · intro r hr hrid r' hr' hrid'
    rw [hmm] at hr'
    have hr'eq := mem_map_unique db.requests hnd _ hFid r hr r' hr' hrid'
    simp only [Function.comp_apply] at hr'eq
    rw [if_neg (fun hc : (r.id == request.id) = true =>
      hrid ((beq_iff_eq.mp hc).trans hid))] at hr'eq
    by_cases hg : (r.book == request.book && r.status == RequestStatus.waitlisted
        && mongoGt r.waitlistPosition request.waitlistPosition) = true
    · rw [if_pos hg] at hr'eq
      subst hr'eq
      refine ⟨rfl, ?_, ?_⟩
      · intro hbk hwl q hq
        simp only [hq, Option.map_some', Option.some.injEq]
        rw [hq, hpos] at hg
        simp only [Bool.and_eq_true, mongoGt, decide_eq_true_eq] at hg
        rw [if_pos hg.2]
      · intro hne
        exfalso
        simp only [Bool.and_eq_true, beq_iff_eq] at hg
        exact hne ⟨hg.1.1, hg.1.2⟩
    · rw [if_neg hg] at hr'eq
      subst hr'eq
      refine ⟨rfl, ?_, fun hne => rfl⟩
      intro hbk hwl q hq
      have hnlt : ¬ k < q := by
        intro hlt
        apply hg
        rw [hq, hpos]
        simp only [Bool.and_eq_true, beq_iff_eq, mongoGt, decide_eq_true_eq]
        exact ⟨⟨hbk, hwl⟩, hlt⟩
      rw [hq, if_neg hnlt]

/-- Witness for C5: cancelling the position-1 request of a two-entry
waitlist. -/
theorem claim_C5_witness :
    ∃ db', cancelRequest 2 1
        { books := [(1, { bookType := BookType.physical
                          physical := { totalCopies := 1, availableCopies := 0 } })]
          requests := [{ id := 1, book := 1, user := 2, requestType := RequestType.borrow
                         status := RequestStatus.waitlisted, waitlistPosition := some 1 },
                       { id := 2, book := 1, user := 3, requestType := RequestType.borrow
                         status := RequestStatus.waitlisted, waitlistPosition := some 2 }] }
        = .ok ("Request cancelled successfully", db') ∧
      db'.books = [(1, { bookType := BookType.physical
                         physical := { totalCopies := 1, availableCopies := 0 } })] ∧
      findRequest db' 1
        = some { id := 1, book := 1, user := 2, requestType := RequestType.borrow
                 status := RequestStatus.cancelled, waitlistPosition := none } ∧
      (∀ r ∈ [({ id := 1, book := 1, user := 2, requestType := RequestType.borrow
                 status := RequestStatus.waitlisted, waitlistPosition := some 1 } : BookRequest),
               { id := 2, book := 1, user := 3, requestType := RequestType.borrow
                 status := RequestStatus.waitlisted, waitlistPosition := some 2 }], r.id ≠ 1 →
        ∀ r' ∈ db'.requests, r'.id = r.id →
          r'.status = r.status ∧
          (r.book = 1 → r.status = .waitlisted →
            ∀ q, r.waitlistPosition = some q →
              r'.waitlistPosition = some (if 1 < q then q - 1 else q)) ∧
          (¬(r.book = 1 ∧ r.status = .waitlisted) →
            r'.waitlistPosition = r.waitlistPosition)) :=
  claim_C5_cancel_waitlisted 2 1
    { books := [(1, { bookType := BookType.physical
                      physical := { totalCopies := 1, availableCopies := 0 } })]
      requests := [{ id := 1, book := 1, user := 2, requestType := RequestType.borrow
                     status := RequestStatus.waitlisted, waitlistPosition := some 1 },
                   { id := 2, book := 1, user := 3, requestType := RequestType.borrow
                     status := RequestStatus.waitlisted, waitlistPosition := some 2 }] }
    { id := 1, book := 1, user := 2, requestType := RequestType.borrow
      status := RequestStatus.waitlisted, waitlistPosition := some 1 }
    1 (by decide) (by rfl) rfl rfl rfl

/-- Converting a pointwise no-duplicate fact into the `findOne` result. -/
theorem dup_find_none (db : LibraryDB) (bookId userId : Nat)
    (hdup : ∀ r ∈ db.requests,
      ¬(r.book = bookId ∧ r.user = userId ∧ isActiveStatus r.status = true)) :
    db.requests.find? (fun r =>
      r.book == bookId && r.user == userId && isActiveStatus r.status) = none := by
  rw [List.find?_eq_none]
  intro r hr hc
  simp only [Bool.and_eq_true, beq_iff_eq] at hc
  exact hdup r hr ⟨hc.1.1, hc.1.2, hc.2⟩

/-- Claim C7: a `borrow` request on an active Resource with no available
unit (all other guards passing) succeeds, is waitlisted at position
`waitlisted count + 1`, and reserves no unit (the book collection is
untouched). -/
theorem claim_C7_exhausted_waitlists (userId bookId newId : Nat)
    (userNote : String) (db : LibraryDB) (book : Book)
    (hbook : findBook db bookId = some book)
    (hactive : book.isActive = true)
    (hbt : book.bookType ≠ .digital)
    (hdup : ∀ r ∈ db.requests,
      ¬(r.book = bookId ∧ r.user = userId ∧ isActiveStatus r.status = true))
    (havail : book.physical.availableCopies = 0) :
    ∃ req db', createRequest userId bookId .borrow userNote newId db = .ok (req, db') ∧
      req.status = .waitlisted ∧
      req.waitlistPosition = some ((wlCount db bookId : Int) + 1) ∧
      db'.books = db.books := by
  have hrun := createRequest_run_waitlist userId bookId newId userNote db book
    hbook hactive hbt (dup_find_none db bookId userId hdup) (by omega)
  exact ⟨_, _, hrun, rfl, rfl, rfl⟩

/-- Witness for C7. -/
theorem claim_C7_witness :
    ∃ req db', createRequest 3 1 .borrow "" 5
        { books := [(1, { bookType := BookType.physical
                          physical := { totalCopies := 1, availableCopies := 0 } })]
          requests := [] } = .ok (req, db') ∧
      req.status = .waitlisted ∧
      req.waitlistPosition = some ((wlCount
        { books := [(1, { bookType := BookType.physical
                          physical := { totalCopies := 1, availableCopies := 0 } })]
          requests := [] } 1 : Int) + 1) ∧
      db'.books = [(1, { bookType := BookType.physical
                         physical := { totalCopies := 1, availableCopies := 0 } })] :=
  claim_C7_exhausted_waitlists 3 1 5 ""
    { books := [(1, { bookType := BookType.physical
                      physical := { totalCopies := 1, availableCopies := 0 } })]
      requests := [] }
    { bookType := BookType.physical
      physical := { totalCopies := 1, availableCopies := 0 } }
    rfl rfl (by decide) (by intro r hr; simp at hr) rfl

/-- Claim C9: a `borrow` request on an active Resource with a unit
available (and no duplicate) succeeds as `pending` and leaves the book
collection — `availableUnits` and `totalUnits` included — unchanged. -/
theorem claim_C9_create_keeps_units (userId bookId newId : Nat)
    (userNote : String) (db : LibraryDB) (book : Book)
    (hbook : findBook db bookId = some book)
    (hactive : book.isActive = true)
    (hbt : book.bookType ≠ .digital)
    (hdup : ∀ r ∈ db.requests,
      ¬(r.book = bookId ∧ r.user = userId ∧ isActiveStatus r.status = true))
    (havail : 0 < book.physical.availableCopies) :
    ∃ req db', createRequest userId bookId .borrow userNote newId db = .ok (req, db') ∧
      req.status = .pending ∧
      req.waitlistPosition = none ∧
      db'.books = db.books := by
  have hrun := createRequest_run_pending userId bookId newId userNote db book
    hbook hactive hbt (dup_find_none db bookId userId hdup) havail
  exact ⟨_, _, hrun, rfl, rfl, rfl⟩

/-- Witness for C9. -/
theorem claim_C9_witness :
    ∃ req db', createRequest 3 1 .borrow "" 5
        { books := [(1, { bookType := BookType.physical
                          physical := { totalCopies := 1, availableCopies := 1 } })]
          requests := [] } = .ok (req, db') ∧
      req.status = .pending ∧
      req.waitlistPosition = none ∧
      db'.books = [(1, { bookType := BookType.physical
                         physical := { totalCopies := 1, availableCopies := 1 } })] :=
  claim_C9_create_keeps_units 3 1 5 ""
    { books := [(1, { bookType := BookType.physical
                      physical := { totalCopies := 1, availableCopies := 1 } })]
      requests := [] }
    { bookType := BookType.physical
      physical := { totalCopies := 1, availableCopies := 1 } }
    rfl rfl (by decide) (by intro r hr; simp at hr) (by decide)

/-- Looking up the book that a `saveBook`-style map just replaced. -/
theorem findBook_replaced (db : LibraryDB) (bookId : Nat) (bnew : Book)
    (rs : List BookRequest) (bk : Book)
    (hfb : findBook db bookId = some bk) :
    findBook
      { books := db.books.map (fun p => if p.1 == bookId then (p.1, bnew) else p)
        requests := rs } bookId = some bnew := by
  unfold findBook at hfb ⊢
  rw [List.find?_map]
  have hP : ((fun p : Nat × Book => p.1 == bookId)
      ∘ (fun p : Nat × Book => if p.1 == bookId then (p.1, bnew) else p))
      = (fun p : Nat × Book => p.1 == bookId) := by
    funext p
    simp only [Function.comp_apply]
    by_cases h : (p.1 == bookId) = true
    · rw [if_pos h]
    · rw [if_neg h]
  rw [hP]
  cases hf : db.books.find? (fun p => p.1 == bookId) with
  | none =>
    rw [hf] at hfb
    exact absurd hfb (by simp)
  | some pair =>
    have hfst := List.find?_some hf
    simp only [Option.map_map, Option.map_some']
    show some ((fun p : Nat × Book =>
      if p.1 == bookId then (p.1, bnew) else p) pair).2 = some bnew
    beta_reduce
    rw [if_pos hfst]

/-- Looking up a different book through a `saveBook`-style map. -/
theorem findBook_replaced_other (db : LibraryDB) (bookId B : Nat) (bnew : Book)
    (rs : List BookRequest) (hne : B ≠ bookId) :
    findBook
      { books := db.books.map (fun p => if p.1 == bookId then (p.1, bnew) else p)
        requests := rs } B = findBook db B := by
  unfold findBook
  rw [List.find?_map]
  have hP : ((fun p : Nat × Book => p.1 == B)
      ∘ (fun p : Nat × Book => if p.1 == bookId then (p.1, bnew) else p))
      = (fun p : Nat × Book => p.1 == B) := by
    funext p
    simp only [Function.comp_apply]
    by_cases h : (p.1 == bookId) = true
    · rw [if_pos h]
    · rw [if_neg h]
  rw [hP]
  cases hf : db.books.find? (fun p => p.1 == B) with
  | none => rfl
  | some pair =>
    have hfst := List.find?_some hf
    simp only [Option.map_map, Option.map_some']
    show some ((fun p : Nat × Book =>
      if p.1 == bookId then (p.1, bnew) else p) pair).2 = some pair.2
    beta_reduce
    have h1 : (pair.1 == bookId) = false := by
      simp only [beq_eq_false_iff_ne]
      rw [beq_iff_eq.mp hfst]
      exact hne
    rw [if_neg (by rw [h1]; exact Bool.false_ne_true)]

/-- Claim C4: `issueBook` succeeds exactly when the request is approved,
is a `borrow`, and a unit is available; on success it decrements
`availableCopies` by one, marks the request issued and stamps
`dueDate = issue time + borrowDurationDays` (in days); an approved
`download` request fails with the type-mismatch error, not the state
error. -/
theorem claim_C4_issue_guards (librarianId requestId now : Nat) (db : LibraryDB)
    (request : BookRequest) (book : Book)
    (hfind : findRequest db requestId = some request)
    (hbook : findBook db request.book = some book)
    (hbounds : book.physical.availableCopies ≤ book.physical.totalCopies) :
    ((∃ res db', issueBook librarianId requestId now db = .ok (res, db')) ↔
      (request.status = .approved ∧ request.requestType = .borrow ∧
        1 ≤ book.physical.availableCopies)) ∧
    (request.status = .approved → request.requestType = .borrow →
      1 ≤ book.physical.availableCopies →
      ∃ db', issueBook librarianId requestId now db =
        .ok ({ request with
               status := .issued
               issuedBy := some librarianId
               issuedAt := some now
               dueDate := some (now + book.borrowDurationDays * 24 * 60 * 60 * 1000) },
          db') ∧
        findBook db' request.book = some { book with physical :=
          { book.physical with
            availableCopies := book.physical.availableCopies - 1 } }) ∧
    (request.status = .approved → request.requestType = .download →
      issueBook librarianId requestId now db =
        .error ⟨"Issue action is only for physical borrow requests", 400⟩) := by
  have hnoclamp : bookPreSave { book with physical :=
      { book.physical with
        availableCopies := book.physical.availableCopies - 1 } }
      = { book with physical :=
      { book.physical with
        availableCopies := book.physical.availableCopies - 1 } } := by
    unfold bookPreSave
    rw [if_neg (by simp only []; omega)]
  refine ⟨⟨?_, ?_⟩, ?_, ?_⟩
  · rintro ⟨res, db', h⟩
    unfold issueBook at h
    rw [hfind] at h
    dsimp only [] at h
    by_cases hs : request.status = .approved
    · by_cases ht : request.requestType = .borrow
      · by_cases ha : 1 ≤ book.physical.availableCopies
        · exact ⟨hs, ht, ha⟩
        · rw [if_neg (by rw [hs]; exact not_not.mpr rfl),
            if_neg (by rw [ht]; exact not_not.mpr rfl), hbook] at h
          dsimp only [] at h
          rw [if_pos (by omega : book.physical.availableCopies < 1)] at h
          exact Except.noConfusion h
      · rw [if_neg (by rw [hs]; exact not_not.mpr rfl), if_pos ht] at h
        exact Except.noConfusion h
    · rw [if_pos hs] at h
      exact Except.noConfusion h
  · rintro ⟨hs, ht, ha⟩
    exact ⟨_, _, issueBook_run librarianId requestId now db request book
      hfind hs ht hbook ha⟩
  · intro hs ht ha
    refine ⟨_, issueBook_run librarianId requestId now db request book
      hfind hs ht hbook ha, ?_⟩
    rw [show (db.requests.map (fun x =>
        if x.id == request.id then
          { request with
            status := RequestStatus.issued
            issuedBy := some librarianId
            issuedAt := some now
            dueDate := some (now + book.borrowDurationDays * 24 * 60 * 60 * 1000) }
        else x)) = db.requests.map (fun x =>
        if x.id == request.id then
          { request with
            status := RequestStatus.issued
            issuedBy := some librarianId
            issuedAt := some now
            dueDate := some (now + book.borrowDurationDays * 24 * 60 * 60 * 1000) }
        else x) from rfl]
    have := findBook_replaced db request.book
      (bookPreSave { book with physical :=
        { book.physical with
          availableCopies := book.physical.availableCopies - 1 } })
      (db.requests.map (fun x =>
        if x.id == request.id then
          { request with
            status := RequestStatus.issued
            issuedBy := some librarianId
            issuedAt := some now
            dueDate := some (now + book.borrowDurationDays * 24 * 60 * 60 * 1000) }
        else x))
      book hbook
    rw [this, hnoclamp]
  · intro hs ht
    unfold issueBook
    rw [hfind]
    dsimp only []
    rw [if_neg (by rw [hs]; exact not_not.mpr rfl)]
    rw [if_pos (by rw [ht]; exact fun hc => RequestType.noConfusion hc)]

/-- Witness for C4: issuing an approved borrow request with one copy on
the shelf. -/
theorem claim_C4_witness :
    ∃ db', issueBook 9 1 0
        { books := [(1, { bookType := BookType.physical
                          physical := { totalCopies := 1, availableCopies := 1 } })]
          requests := [{ id := 1, book := 1, user := 2, requestType := RequestType.borrow
                         status := RequestStatus.approved }] } =
      .ok ({ id := 1, book := 1, user := 2, requestType := RequestType.borrow
             status := RequestStatus.issued, issuedBy := some 9, issuedAt := some 0
             dueDate := some (0 + 14 * 24 * 60 * 60 * 1000) }, db') ∧
      findBook db' 1 = some { bookType := BookType.physical
                              physical := { totalCopies := 1, availableCopies := 1 - 1 } } :=
  (claim_C4_issue_guards 9 1 0
    { books := [(1, { bookType := BookType.physical
                      physical := { totalCopies := 1, availableCopies := 1 } })]
      requests := [{ id := 1, book := 1, user := 2, requestType := RequestType.borrow
                     status := RequestStatus.approved }] }
    { id := 1, book := 1, user := 2, requestType := RequestType.borrow
      status := RequestStatus.approved }
    { bookType := BookType.physical
      physical := { totalCopies := 1, availableCopies := 1 } }
    rfl rfl (by decide)).2.1 rfl rfl (by decide)

/-- `findBook` is unaffected by `promoteWaitlist`. -/
theorem findBook_promote (b now : Nat) (db : LibraryDB) (i : Nat) :
    findBook (promoteWaitlist b now db) i = findBook db i := by
  unfold findBook
  rw [promoteWaitlist_books]

/-- Counterexample to C3: with one copy in total, one (inconsistently)
already available and an issued loan outstanding, `returnBook` succeeds
with no error of any kind and the counter is silently clamped to
`totalCopies` by the pre-save hook. -/
theorem claim_C3_counterexample :
    returnBook 9 1 0
      { books := [(1, { bookType := BookType.physical
                        physical := { totalCopies := 1, availableCopies := 1 } })]
        requests := [{ id := 1, book := 1, user := 2, requestType := RequestType.borrow
                       status := RequestStatus.issued }] }
    = .ok ({ id := 1, book := 1, user := 2, requestType := RequestType.borrow
             status := RequestStatus.returned, returnedAt := some 0
             returnAcceptedBy := some 9 },
        { books := [(1, { bookType := BookType.physical
                          physical := { totalCopies := 1, availableCopies := 1 } })]
          requests := [{ id := 1, book := 1, user := 2, requestType := RequestType.borrow
                         status := RequestStatus.returned, returnedAt := some 0
                         returnAcceptedBy := some 9 }] }) := by
  rfl

/-- Amended C3: when `releaseUnit` (the increment in `returnBook`) would
push `availableCopies` past `totalCopies`, the operation still succeeds
and the pre-save hook silently clamps the counter to `totalCopies`; no
internal-consistency error is reported. -/
theorem claim_C3_silent_clamp (librarianId requestId now : Nat) (db : LibraryDB)
    (request : BookRequest) (book : Book)
    (hfind : findRequest db requestId = some request)
    (hst : request.status = .issued)
    (hbook : findBook db request.book = some book)
    (hover : book.physical.totalCopies < book.physical.availableCopies + 1) :
    ∃ res db', returnBook librarianId requestId now db = .ok (res, db') ∧
      findBook db' request.book = some { book with physical :=
        { book.physical with availableCopies := book.physical.totalCopies } } := by
  have hrun := returnBook_run librarianId requestId now db request book hfind hst hbook
  refine ⟨_, _, hrun, ?_⟩
  rw [findBook_promote]
  have hclamp : bookPreSave { book with physical :=
      { book.physical with
        availableCopies := book.physical.availableCopies + 1 } }
      = { book with physical :=
      { book.physical with availableCopies := book.physical.totalCopies } } := by
    unfold bookPreSave
    rw [if_pos (by simp only []; omega)]
  have := findBook_replaced db request.book
    (bookPreSave { book with physical :=
      { book.physical with
        availableCopies := book.physical.availableCopies + 1 } })
    (db.requests.map (fun x =>
      if x.id == request.id then
        { request with
          status := RequestStatus.returned
          returnedAt := some now
          returnAcceptedBy := some librarianId }
      else x))
    book hbook
  rw [this, hclamp]

/-- Witness for the amended C3. -/
theorem claim_C3_witness :
    ∃ res db', returnBook 9 1 0
      { books := [(1, { bookType := BookType.physical
                        physical := { totalCopies := 1, availableCopies := 1 } })]
        requests := [{ id := 1, book := 1, user := 2, requestType := RequestType.borrow
                       status := RequestStatus.issued }] }
      = .ok (res, db') ∧
      findBook db' 1 = some { bookType := BookType.physical
                              physical := { totalCopies := 1, availableCopies := 1 } } :=
  claim_C3_silent_clamp 9 1 0
    { books := [(1, { bookType := BookType.physical
                      physical := { totalCopies := 1, availableCopies := 1 } })]
      requests := [{ id := 1, book := 1, user := 2, requestType := RequestType.borrow
                     status := RequestStatus.issued }] }
    { id := 1, book := 1, user := 2, requestType := RequestType.borrow
      status := RequestStatus.issued }
    { bookType := BookType.physical
      physical := { totalCopies := 1, availableCopies := 1 } }
    rfl rfl rfl (by decide)

/-- The stored pair behind a successful `findBook`. -/
theorem findBook_mem (db : LibraryDB) (i : Nat) (bk : Book)
    (h : findBook db i = some bk) : ∃ pr ∈ db.books, pr.1 = i ∧ pr.2 = bk := by
  unfold findBook at h
  cases hf : db.books.find? (fun p => p.1 == i) with
  | none =>
    rw [hf] at h
    exact absurd h (by simp)
  | some pair =>
    rw [hf] at h
    simp only [Option.map_some', Option.some.injEq] at h
    have hp := List.find?_some hf
    have hp1 : (pair.1 == i) = true := hp
    exact ⟨pair, List.mem_of_find?_eq_some hf, beq_iff_eq.mp hp1, h⟩

/-- The pre-save hook keeps the counter bounds whenever the incoming
document has a non-negative counter and capacity. -/
theorem bookPreSave_bounds (b : Book)
    (h0 : 0 ≤ b.physical.availableCopies)
    (ht : 0 ≤ b.physical.totalCopies) :
    0 ≤ (bookPreSave b).physical.availableCopies ∧
    (bookPreSave b).physical.availableCopies ≤ (bookPreSave b).physical.totalCopies := by
  unfold bookPreSave
  by_cases h : b.physical.totalCopies < b.physical.availableCopies
  · rw [if_pos h]
    constructor
    · exact ht
    · exact le_refl _
  · rw [if_neg h]
    exact ⟨h0, by omega⟩

/-- Claim C8: `0 ≤ availableCopies ≤ totalCopies` holds for every stored
book and is preserved by each counter-mutating operation:
`createRequest`, `issueBook` and `returnBook`. -/
theorem claim_C8_counter_bounds :
    (∀ (userId bookId newId : Nat) (requestType : RequestType) (userNote : String)
        (db : LibraryDB) (req : BookRequest) (db' : LibraryDB),
      createRequest userId bookId requestType userNote newId db = .ok (req, db') →
      boundsOK db → boundsOK db') ∧
    (∀ (librarianId requestId now : Nat) (db : LibraryDB)
        (res : BookRequest) (db' : LibraryDB),
      issueBook librarianId requestId now db = .ok (res, db') →
      boundsOK db → boundsOK db') ∧
    (∀ (librarianId requestId now : Nat) (db : LibraryDB)
        (res : BookRequest) (db' : LibraryDB),
      returnBook librarianId requestId now db = .ok (res, db') →
      boundsOK db → boundsOK db') := by
  refine ⟨?_, ?_, ?_⟩
  · intro userId bookId newId requestType userNote db req db' h hB
    unfold createRequest at h
    split at h
    · exact Except.noConfusion h
    · rename_i book heq
      split at h
      · exact Except.noConfusion h
      split at h
      · exact Except.noConfusion h
      split at h
      · exact Except.noConfusion h
      split at h
      · exact Except.noConfusion h
      split at h
      · exact Except.noConfusion h
      · split at h
        · simp only [Except.ok.injEq, Prod.mk.injEq] at h
          obtain ⟨h1, h2⟩ := h
          subst h2
          exact fun pr hpr => hB pr hpr
        · dsimp only [] at h
          split at h
          · simp only [Except.ok.injEq, Prod.mk.injEq] at h
            obtain ⟨h1, h2⟩ := h
            subst h2
            exact fun pr hpr => hB pr hpr
          · simp only [Except.ok.injEq, Prod.mk.injEq] at h
            obtain ⟨h1, h2⟩ := h
            subst h2
            exact fun pr hpr => hB pr hpr
  · intro librarianId requestId now db res db' h hB
    unfold issueBook at h
    split at h
    · exact Except.noConfusion h
    · rename_i request heq
      split at h
      · exact Except.noConfusion h
      split at h
      · exact Except.noConfusion h
      split at h
      · exact Except.noConfusion h
      · rename_i book hfb
        split at h
        · exact Except.noConfusion h
        · rename_i hav
          dsimp only [saveBook, saveRequest] at h
          simp only [Except.ok.injEq, Prod.mk.injEq] at h
          obtain ⟨h1, h2⟩ := h
          subst h2
          intro pr hpr
          simp only [List.mem_map] at hpr
          obtain ⟨pr0, hpr0, rfl⟩ := hpr
          beta_reduce
          obtain ⟨prb, hprb, hpr1, hpr2⟩ := findBook_mem db request.book book hfb
          have hb := hB prb hprb
          rw [hpr2] at hb
          by_cases hk : (pr0.1 == request.book) = true
          · rw [if_pos hk]
            exact bookPreSave_bounds { book with physical :=
                { book.physical with
                  availableCopies := book.physical.availableCopies - 1 } }
              (by dsimp only []; omega) (by dsimp only []; omega)
          · rw [if_neg hk]
            exact hB pr0 hpr0
  · intro librarianId requestId now db res db' h hB
    unfold returnBook at h
    split at h
    · exact Except.noConfusion h
    · rename_i request heq
      split at h
      · exact Except.noConfusion h
      split at h
      · exact Except.noConfusion h
      · rename_i book hfb
        dsimp only [saveBook, saveRequest] at h
        simp only [Except.ok.injEq, Prod.mk.injEq] at h
        obtain ⟨h1, h2⟩ := h
        subst h2
        intro pr hpr
        rw [promoteWaitlist_books] at hpr
        simp only [List.mem_map] at hpr
        obtain ⟨pr0, hpr0, rfl⟩ := hpr
        beta_reduce
        obtain ⟨prb, hprb, hpr1, hpr2⟩ := findBook_mem db request.book book hfb
        have hb := hB prb hprb
        rw [hpr2] at hb
        by_cases hk : (pr0.1 == request.book) = true
        · rw [if_pos hk]
          exact bookPreSave_bounds { book with physical :=
              { book.physical with
                availableCopies := book.physical.availableCopies + 1 } }
            (by dsimp only []; omega) (by dsimp only []; omega)
        · rw [if_neg hk]
          exact hB pr0 hpr0

/-- Witness for C8: the bounds survive a concrete waitlisting create, a
concrete issue and a concrete return. -/
theorem claim_C8_witness :
    boundsOK { books := [(1, { bookType := BookType.physical
                               physical := { totalCopies := 1, availableCopies := 0 } })]
               requests := [{ id := 5, book := 1, user := 3
                              requestType := RequestType.borrow
                              status := RequestStatus.waitlisted
                              waitlistPosition := some 1 }] } ∧
    boundsOK { books := [(1, { bookType := BookType.physical
                               physical := { totalCopies := 1, availableCopies := 0 } })]
               requests := [{ id := 1, book := 1, user := 2
                              requestType := RequestType.borrow
                              status := RequestStatus.issued, issuedBy := some 9
                              issuedAt := some 0
                              dueDate := some (0 + 14 * 24 * 60 * 60 * 1000) }] } ∧
    boundsOK { books := [(1, { bookType := BookType.physical
                               physical := { totalCopies := 1, availableCopies := 1 } })]
               requests := [{ id := 1, book := 1, user := 2
                              requestType := RequestType.borrow
                              status := RequestStatus.returned, returnedAt := some 0
                              returnAcceptedBy := some 9 }] } := by
  refine ⟨?_, ?_, ?_⟩
  · exact claim_C8_counter_bounds.1 3 1 5 .borrow ""
      { books := [(1, { bookType := BookType.physical
                        physical := { totalCopies := 1, availableCopies := 0 } })]
        requests := [] }
      { id := 5, book := 1, user := 3, requestType := RequestType.borrow
        status := RequestStatus.waitlisted, waitlistPosition := some 1 }
      _ (by rfl) (by decide)
  · exact claim_C8_counter_bounds.2.1 9 1 0
      { books := [(1, { bookType := BookType.physical
                        physical := { totalCopies := 1, availableCopies := 1 } })]
        requests := [{ id := 1, book := 1, user := 2
                       requestType := RequestType.borrow
                       status := RequestStatus.approved }] }
      { id := 1, book := 1, user := 2, requestType := RequestType.borrow
        status := RequestStatus.issued, issuedBy := some 9, issuedAt := some 0
        dueDate := some (0 + 14 * 24 * 60 * 60 * 1000) }
      _ (by rfl) (by decide)
  · exact claim_C8_counter_bounds.2.2 9 1 0
      { books := [(1, { bookType := BookType.physical
                        physical := { totalCopies := 1, availableCopies := 0 } })]
        requests := [{ id := 1, book := 1, user := 2
                       requestType := RequestType.borrow
                       status := RequestStatus.issued }] }
      { id := 1, book := 1, user := 2, requestType := RequestType.borrow
        status := RequestStatus.returned, returnedAt := some 0
        returnAcceptedBy := some 9 }
      _ (by rfl) (by decide)

/-- Mapping the request list preserves `issuedImpliesBorrow` when each
image respects it. -/
theorem iib_of_map (db : LibraryDB) (bs : List (Nat × Book))
    (F : BookRequest → BookRequest)
    (h : ∀ r ∈ db.requests, (F r).status = .issued → (F r).requestType = .borrow) :
    issuedImpliesBorrow { books := bs, requests := db.requests.map F } := by
  intro r' hr'
  obtain ⟨r0, hr0, rfl⟩ := List.mem_map.mp hr'
  exact h r0 hr0

/-- `promoteWaitlist` preserves `issuedImpliesBorrow`. -/
theorem iib_promote (b now : Nat) (db : LibraryDB)
    (h : issuedImpliesBorrow db) : issuedImpliesBorrow (promoteWaitlist b now db) := by
  cases hfind : db.requests.find? (fun r =>
      r.book == b && r.status == RequestStatus.waitlisted
        && r.waitlistPosition == some 1) with
  | none =>
    rw [promoteWaitlist_none b now db hfind]
    exact h
  | some nx =>
    rw [promoteWaitlist_apply b now db nx hfind]
    intro r' hr'
    simp only [List.map_map, List.mem_map, Function.comp_apply] at hr'
    obtain ⟨r0, hr0, rfl⟩ := hr'
    by_cases h1 : (r0.id == nx.id) = true
    · rw [if_pos h1]
      split
      · intro hc
        exact absurd hc (by simp)
      · intro hc
        exact absurd hc (by simp)
    · rw [if_neg h1]
      split
      · intro hc
        exact h r0 hr0 hc
      · exact h r0 hr0

/-- Claim C10: only `borrow` requests ever reach `issued`: `createRequest`
never creates an `issued` request, `issueBook` (the only transition into
`issued`) rejects non-`borrow` requests with the type-mismatch error, and
the invariant "every issued request has requestType borrow" is preserved
by every operation. -/
theorem claim_C10_issued_only_borrow :
    (∀ (userId bookId newId : Nat) (requestType : RequestType) (userNote : String)
        (db : LibraryDB) (req : BookRequest) (db' : LibraryDB),
      createRequest userId bookId requestType userNote newId db = .ok (req, db') →
      req.status ≠ .issued ∧
      (issuedImpliesBorrow db → issuedImpliesBorrow db')) ∧
    (∀ (librarianId requestId now : Nat) (db : LibraryDB) (request : BookRequest),
      findRequest db requestId = some request →
      request.status = .approved →
      request.requestType ≠ .borrow →
      issueBook librarianId requestId now db =
        .error ⟨"Issue action is only for physical borrow requests", 400⟩) ∧
    (∀ (userId requestId : Nat) (db : LibraryDB) (msg : String) (db' : LibraryDB),
      cancelRequest userId requestId db = .ok (msg, db') →
      issuedImpliesBorrow db → issuedImpliesBorrow db') ∧
    (∀ (librarianId requestId now : Nat) (db : LibraryDB)
        (res : BookRequest) (db' : LibraryDB),
      approveRequest librarianId requestId now db = .ok (res, db') →
      issuedImpliesBorrow db → issuedImpliesBorrow db') ∧
    (∀ (librarianId requestId : Nat) (reason : String) (now : Nat) (db : LibraryDB)
        (res : BookRequest) (db' : LibraryDB),
      rejectRequest librarianId requestId reason now db = .ok (res, db') →
      issuedImpliesBorrow db → issuedImpliesBorrow db') ∧
    (∀ (librarianId requestId now : Nat) (db : LibraryDB)
        (res : BookRequest) (db' : LibraryDB),
      issueBook librarianId requestId now db = .ok (res, db') →
      issuedImpliesBorrow db → issuedImpliesBorrow db') ∧
    (∀ (librarianId requestId now : Nat) (db : LibraryDB)
        (res : BookRequest) (db' : LibraryDB),
      returnBook librarianId requestId now db = .ok (res, db') →
      issuedImpliesBorrow db → issuedImpliesBorrow db') := by
  refine ⟨?_, ?_, ?_, ?_, ?_, ?_, ?_⟩
  · intro userId bookId newId requestType userNote db req db' h
    unfold createRequest at h
    split at h
    · exact Except.noConfusion h
    · rename_i book heq
      split at h
      · exact Except.noConfusion h
      split at h
      · exact Except.noConfusion h
      split at h
      · exact Except.noConfusion h
      split at h
      · exact Except.noConfusion h
      split at h
      · exact Except.noConfusion h
      · split at h
        · simp only [Except.ok.injEq, Prod.mk.injEq] at h
          obtain ⟨h1, h2⟩ := h
          subst h1
          subst h2
          refine ⟨by simp, ?_⟩
          intro hinv r' hr'
          simp only [List.mem_append, List.mem_singleton] at hr'
          rcases hr' with hr' | hr'
          · exact hinv r' hr'
          · subst hr'
            intro hc
            exact absurd hc (by simp)
        · dsimp only [] at h
          split at h
          · simp only [Except.ok.injEq, Prod.mk.injEq] at h
            obtain ⟨h1, h2⟩ := h
            subst h1
            subst h2
            refine ⟨by simp, ?_⟩
            intro hinv r' hr'
            simp only [List.mem_append, List.mem_singleton] at hr'
            rcases hr' with hr' | hr'
            · exact hinv r' hr'
            · subst hr'
              intro hc
              exact absurd hc (by simp)
          · simp only [Except.ok.injEq, Prod.mk.injEq] at h
            obtain ⟨h1, h2⟩ := h
            subst h1
            subst h2
            refine ⟨by simp, ?_⟩
            intro hinv r' hr'
            simp only [List.mem_append, List.mem_singleton] at hr'
            rcases hr' with hr' | hr'
            · exact hinv r' hr'
            · subst hr'
              intro hc
              exact absurd hc (by simp)
  · intro librarianId requestId now db request hfind hs ht
    unfold issueBook
    rw [hfind]
    dsimp only []
    rw [if_neg (by rw [hs]; exact not_not.mpr rfl)]
    rw [if_pos ht]
  · intro userId requestId db msg db' h hinv
    unfold cancelRequest at h
    split at h
    · exact Except.noConfusion h
    · rename_i request heq
      split at h
      · exact Except.noConfusion h
      split at h
      · exact Except.noConfusion h
      · dsimp only [saveRequest] at h
        split at h
        · simp only [Except.ok.injEq, Prod.mk.injEq] at h
          obtain ⟨h1, h2⟩ := h
          subst h2
          rw [show ((db.requests.map (fun x =>
              if x.id == request.id then
                { request with
                  status := RequestStatus.cancelled
                  waitlistPosition := none } else x)).map
            (fun r =>
              if r.book == request.book && r.status == RequestStatus.waitlisted
                  && mongoGt r.waitlistPosition request.waitlistPosition then
                { r with waitlistPosition := r.waitlistPosition.map (fun q => q - 1) }
              else r)) = db.requests.map ((fun r =>
              if r.book == request.book && r.status == RequestStatus.waitlisted
                  && mongoGt r.waitlistPosition request.waitlistPosition then
                { r with waitlistPosition := r.waitlistPosition.map (fun q => q - 1) }
              else r) ∘ (fun x =>
              if x.id == request.id then
                { request with
                  status := RequestStatus.cancelled
                  waitlistPosition := none } else x)) from List.map_map _ _ _]
          apply iib_of_map
          intro r hr
          simp only [Function.comp_apply]
          by_cases h1 : (r.id == request.id) = true
          · rw [if_pos h1]
            split
            · intro hc
              exact absurd hc (by simp)
            · intro hc
              exact absurd hc (by simp)
          · rw [if_neg h1]
            split
            · intro hc
              exact hinv r hr hc
            · exact hinv r hr
        · simp only [Except.ok.injEq, Prod.mk.injEq] at h
          obtain ⟨h1, h2⟩ := h
          subst h2
          apply iib_of_map
          intro r hr
          by_cases h1 : (r.id == request.id) = true
          · rw [if_pos h1]
            intro hc
            exact absurd hc (by simp)
          · rw [if_neg h1]
            exact hinv r hr
  · intro librarianId requestId now db res db' h hinv
    unfold approveRequest at h
    split at h
    · exact Except.noConfusion h
    · rename_i request heq
      split at h
      · exact Except.noConfusion h
      · dsimp only [saveRequest] at h
        simp only [Except.ok.injEq, Prod.mk.injEq] at h
        obtain ⟨h1, h2⟩ := h
        subst h2
        apply iib_of_map
        intro r hr
        by_cases h1 : (r.id == request.id) = true
        · rw [if_pos h1]
          intro hc
          exact absurd hc (by simp)
        · rw [if_neg h1]
          exact hinv r hr
  · intro librarianId requestId reason now db res db' h hinv
    unfold rejectRequest at h
    split at h
    · exact Except.noConfusion h
    · rename_i request heq
      split at h
      · exact Except.noConfusion h
      · dsimp only [saveRequest] at h
        simp only [Except.ok.injEq, Prod.mk.injEq] at h
        obtain ⟨h1, h2⟩ := h
        subst h2
        apply iib_of_map
        intro r hr
        by_cases h1 : (r.id == request.id) = true
        · rw [if_pos h1]
          intro hc
          exact absurd hc (by simp)
        · rw [if_neg h1]
          exact hinv r hr
  · intro librarianId requestId now db res db' h hinv
    unfold issueBook at h
    split at h
    · exact Except.noConfusion h
    · rename_i request heq
      split at h
      · exact Except.noConfusion h
      · rename_i hs
        split at h
        · exact Except.noConfusion h
        · rename_i ht
          split at h
          · exact Except.noConfusion h
          · rename_i book hfb
            split at h
            · exact Except.noConfusion h
            · dsimp only [saveBook, saveRequest] at h
              simp only [Except.ok.injEq, Prod.mk.injEq] at h
              obtain ⟨h1, h2⟩ := h
              subst h2
              apply iib_of_map
              intro r hr
              by_cases h1 : (r.id == request.id) = true
              · rw [if_pos h1]
                intro hc
                exact not_not.mp ht
              · rw [if_neg h1]
                exact hinv r hr
  · intro librarianId requestId now db res db' h hinv
    unfold returnBook at h
    split at h
    · exact Except.noConfusion h
    · rename_i request heq
      split at h
      · exact Except.noConfusion h
      · split at h
        · exact Except.noConfusion h
        · rename_i book hfb
          dsimp only [saveBook, saveRequest] at h
          simp only [Except.ok.injEq, Prod.mk.injEq] at h
          obtain ⟨h1, h2⟩ := h
          subst h2
          apply iib_promote
          apply iib_of_map
          intro r hr
          by_cases h1 : (r.id == request.id) = true
          · rw [if_pos h1]
            intro hc
            exact absurd hc (by simp)
          · rw [if_neg h1]
            exact hinv r hr

/-- Witness for C10: an approved `download` request is refused issue with
the type-mismatch error, and a concrete create keeps the invariant. -/
theorem claim_C10_witness :
    issueBook 9 1 0
      { books := [(1, { bookType := BookType.hybrid
                        digital := { fileUrl := "u" }
                        physical := { totalCopies := 1, availableCopies := 1 } })]
        requests := [{ id := 1, book := 1, user := 2
                       requestType := RequestType.download
                       status := RequestStatus.approved }] }
      = .error ⟨"Issue action is only for physical borrow requests", 400⟩ ∧
    issuedImpliesBorrow
      { books := [(1, { bookType := BookType.physical
                        physical := { totalCopies := 1, availableCopies := 0 } })]
        requests := [{ id := 5, book := 1, user := 3
                       requestType := RequestType.borrow
                       status := RequestStatus.waitlisted
                       waitlistPosition := some 1 }] } := by
  constructor
  · exact claim_C10_issued_only_borrow.2.1 9 1 0
      { books := [(1, { bookType := BookType.hybrid
                        digital := { fileUrl := "u" }
                        physical := { totalCopies := 1, availableCopies := 1 } })]
        requests := [{ id := 1, book := 1, user := 2
                       requestType := RequestType.download
                       status := RequestStatus.approved }] }
      { id := 1, book := 1, user := 2
        requestType := RequestType.download
        status := RequestStatus.approved }
      rfl rfl (by decide)
  · exact (claim_C10_issued_only_borrow.1 3 1 5 .borrow ""
      { books := [(1, { bookType := BookType.physical
                        physical := { totalCopies := 1, availableCopies := 0 } })]
        requests := [] }
      { id := 5, book := 1, user := 3, requestType := RequestType.borrow
        status := RequestStatus.waitlisted, waitlistPosition := some 1 }
      _ (by rfl)).2 (by decide)

/-- `countP` of an append with a singleton. -/
theorem countP_append_singleton (rs : List BookRequest) (req : BookRequest)
    (P : BookRequest → Bool) :
    ((rs ++ [req]).countP P) = rs.countP P + (if P req then 1 else 0) := by
  rw [List.countP_append]
  congr 1
  by_cases h : P req <;> simp [List.countP_cons, h]

/-- Replacing a request by one with the same book and user and a status
that is active only if the old one was cannot increase any per-pair
active count. -/
theorem actCount_replace_le (rs : List BookRequest)
    (hnd : (rs.map (fun r => r.id)).Nodup)
    (req newr : BookRequest) (hmem : req ∈ rs)
    (hbook : newr.book = req.book) (huser : newr.user = req.user)
    (hact : isActiveStatus newr.status = true → isActiveStatus req.status = true)
    (b u : Nat) :
    (rs.map (fun x => if x.id == req.id then newr else x)).countP
      (fun r => r.book == b && r.user == u && isActiveStatus r.status)
      ≤ rs.countP (fun r => r.book == b && r.user == u && isActiveStatus r.status) := by
  have e := countP_replace rs hnd req newr hmem
    (fun r => r.book == b && r.user == u && isActiveStatus r.status)
  simp only [] at e
  by_cases h1 : (newr.book == b && newr.user == u && isActiveStatus newr.status) = true
  · have h2 : (req.book == b && req.user == u && isActiveStatus req.status) = true := by
      simp only [Bool.and_eq_true, beq_iff_eq] at h1 ⊢
      refine ⟨⟨?_, ?_⟩, hact h1.2⟩
      · rw [← hbook]
        exact h1.1.1
      · rw [← huser]
        exact h1.1.2
    rw [h1, h2] at e
    try rw [if_pos rfl] at e
    omega
  · have h1f : (newr.book == b && newr.user == u && isActiveStatus newr.status) = false := by
      cases hq : (newr.book == b && newr.user == u && isActiveStatus newr.status)
      · rfl
      · exact absurd hq h1
    rw [h1f] at e
    try rw [if_neg Bool.false_ne_true] at e
    by_cases h2 : (req.book == b && req.user == u && isActiveStatus req.status) = true
    · rw [h2] at e
      try rw [if_pos rfl] at e
      omega
    · have h2f : (req.book == b && req.user == u && isActiveStatus req.status) = false := by
        cases hq : (req.book == b && req.user == u && isActiveStatus req.status)
        · rfl
        · exact absurd hq h2
      rw [h2f] at e
      try rw [if_neg Bool.false_ne_true] at e
      omega

/-- Maps that only change positions or timestamps leave per-pair active
counts unchanged. -/
theorem actCount_map_frame (rs : List BookRequest) (b u : Nat)
    (g : BookRequest → BookRequest)
    (hg : ∀ r, (g r).book = r.book ∧ (g r).user = r.user ∧ (g r).status = r.status) :
    (rs.map g).countP (fun r => r.book == b && r.user == u && isActiveStatus r.status)
      = rs.countP (fun r => r.book == b && r.user == u && isActiveStatus r.status) := by
  rw [List.countP_map]
  apply List.countP_congr
  intro r _
  simp only [Function.comp_apply, Bool.and_eq_true, beq_iff_eq,
    (hg r).1, (hg r).2.1, (hg r).2.2]

/-- `promoteWaitlist` does not create requests and cannot increase any
per-pair active count. -/
theorem amoa_promote (b now : Nat) (db : LibraryDB) (hnd : uniqueIds db) :
    (atMostOneActive db → atMostOneActive (promoteWaitlist b now db)) ∧
    (promoteWaitlist b now db).requests.map (fun r => r.id)
      = db.requests.map (fun r => r.id) := by
  cases hfind : db.requests.find? (fun r =>
      r.book == b && r.status == RequestStatus.waitlisted
        && r.waitlistPosition == some 1) with
  | none =>
    rw [promoteWaitlist_none b now db hfind]
    exact ⟨fun h => h, rfl⟩
  | some nx =>
    rw [promoteWaitlist_apply b now db nx hfind]
    have hmem := List.mem_of_find?_eq_some hfind
    have hpred := List.find?_some hfind
    simp only [Bool.and_eq_true, beq_iff_eq] at hpred
    constructor
    · intro hA bk u
      show ((db.requests.map _).map _).countP _ ≤ 1
      rw [actCount_map_frame]
      · calc (db.requests.map _).countP _
            ≤ db.requests.countP
              (fun r => r.book == bk && r.user == u && isActiveStatus r.status) := by
              apply actCount_replace_le db.requests hnd nx
                { nx with
                  status := RequestStatus.pending
                  waitlistPosition := none
                  waitlistNotifiedAt := some now } hmem rfl rfl
              intro _
              rw [hpred.1.2]
              rfl
          _ ≤ 1 := hA bk u
      · intro r
        by_cases hg : (r.book == b && r.status == RequestStatus.waitlisted) = true <;>
          simp [hg]
    · rw [ids_map_preserved (db.requests.map _) _ ?hg2,
        ids_map_preserved db.requests _ ?hrep]
      case hg2 =>
        intro r
        split <;> rfl
      case hrep =>
        intro r
        by_cases h1 : (r.id == nx.id) = true
        · rw [if_pos h1]
          exact (beq_iff_eq.mp h1).symm
        · rw [if_neg h1]

/-- `cancelRequest` does not create requests and cannot increase any
per-pair active count. -/
theorem amoa_cancel (userId requestId : Nat) (db : LibraryDB)
    (msg : String) (db' : LibraryDB) (hnd : uniqueIds db)
    (h : cancelRequest userId requestId db = .ok (msg, db')) :
    (atMostOneActive db → atMostOneActive db') ∧
    db'.requests.map (fun r => r.id) = db.requests.map (fun r => r.id) := by
  unfold cancelRequest at h
  split at h
  · exact Except.noConfusion h
  · rename_i request heq
    split at h
    · exact Except.noConfusion h
    split at h
    · exact Except.noConfusion h
    · rename_i husr hsts
      obtain ⟨hmem, hid⟩ := findRequest_mem db requestId request heq
      dsimp only [saveRequest] at h
      split at h
      · simp only [Except.ok.injEq, Prod.mk.injEq] at h
        obtain ⟨h1, h2⟩ := h
        subst h2
        constructor
        · intro hA bk u
          show ((db.requests.map _).map _).countP _ ≤ 1
          rw [actCount_map_frame]
          · calc (db.requests.map _).countP _
                ≤ db.requests.countP
                  (fun r => r.book == bk && r.user == u && isActiveStatus r.status) := by
                  apply actCount_replace_le db.requests hnd request
                    { request with
                      status := RequestStatus.cancelled
                      waitlistPosition := none } hmem rfl rfl
                  intro hc
                  exact absurd hc (by simp [isActiveStatus])
              _ ≤ 1 := hA bk u
          · intro r
            by_cases hg : (r.book == request.book
                && r.status == RequestStatus.waitlisted
                && mongoGt r.waitlistPosition request.waitlistPosition) = true <;>
              simp [hg]
        · rw [ids_map_preserved (db.requests.map _) _ ?hg2,
            ids_map_preserved db.requests _ ?hrep]
          case hg2 =>
            intro r
            split <;> rfl
          case hrep =>
            intro r
            by_cases h1 : (r.id == request.id) = true
            · rw [if_pos h1]
              exact (beq_iff_eq.mp h1).symm
            · rw [if_neg h1]
      · simp only [Except.ok.injEq, Prod.mk.injEq] at h
        obtain ⟨h1, h2⟩ := h
        subst h2
        constructor
        · intro hA bk u
          show (db.requests.map _).countP _ ≤ 1
          calc (db.requests.map _).countP _
              ≤ db.requests.countP
                (fun r => r.book == bk && r.user == u && isActiveStatus r.status) := by
                apply actCount_replace_le db.requests hnd request
                  { request with
                    status := RequestStatus.cancelled
                    waitlistPosition := none } hmem rfl rfl
                intro hc
                exact absurd hc (by simp [isActiveStatus])
            _ ≤ 1 := hA bk u
        · rw [ids_map_preserved db.requests _ ?hrep2]
          case hrep2 =>
            intro r
            by_cases h1 : (r.id == request.id) = true
            · rw [if_pos h1]
              exact (beq_iff_eq.mp h1).symm
            · rw [if_neg h1]

/-- `approveRequest` does not create requests and keeps per-pair active
counts bounded. -/
theorem amoa_approve (librarianId requestId now : Nat) (db : LibraryDB)
    (res : BookRequest) (db' : LibraryDB) (hnd : uniqueIds db)
    (h : approveRequest librarianId requestId now db = .ok (res, db')) :
    (atMostOneActive db → atMostOneActive db') ∧
    db'.requests.map (fun r => r.id) = db.requests.map (fun r => r.id) := by
  unfold approveRequest at h
  split at h
  · exact Except.noConfusion h
  · rename_i request heq
    split at h
    · exact Except.noConfusion h
    · rename_i hs
      obtain ⟨hmem, hid⟩ := findRequest_mem db requestId request heq
      dsimp only [saveRequest] at h
      simp only [Except.ok.injEq, Prod.mk.injEq] at h
      obtain ⟨h1, h2⟩ := h
      subst h2
      constructor
      · intro hA bk u
        show (db.requests.map _).countP _ ≤ 1
        calc (db.requests.map _).countP _
            ≤ db.requests.countP
              (fun r => r.book == bk && r.user == u && isActiveStatus r.status) := by
              apply actCount_replace_le db.requests hnd request
                { request with
                  status := RequestStatus.approved
                  approvedBy := some librarianId
                  approvedAt := some now } hmem rfl rfl
              intro _
              rw [not_not.mp hs]
              rfl
          _ ≤ 1 := hA bk u
      · rw [ids_map_preserved db.requests _ ?hrep]
        case hrep =>
          intro r
          by_cases h1 : (r.id == request.id) = true
          · rw [if_pos h1]
            exact (beq_iff_eq.mp h1).symm
          · rw [if_neg h1]

/-- `rejectRequest` does not create requests and keeps per-pair active
counts bounded. -/
theorem amoa_reject (librarianId requestId : Nat) (reason : String) (now : Nat)
    (db : LibraryDB) (res : BookRequest) (db' : LibraryDB) (hnd : uniqueIds db)
    (h : rejectRequest librarianId requestId reason now db = .ok (res, db')) :
    (atMostOneActive db → atMostOneActive db') ∧
    db'.requests.map (fun r => r.id) = db.requests.map (fun r => r.id) := by
  unfold rejectRequest at h
  split at h
  · exact Except.noConfusion h
  · rename_i request heq
    split at h
    · exact Except.noConfusion h
    · obtain ⟨hmem, hid⟩ := findRequest_mem db requestId request heq
      dsimp only [saveRequest] at h
      simp only [Except.ok.injEq, Prod.mk.injEq] at h
      obtain ⟨h1, h2⟩ := h
      subst h2
      constructor
      · intro hA bk u
        show (db.requests.map _).countP _ ≤ 1
        calc (db.requests.map _).countP _
            ≤ db.requests.countP
              (fun r => r.book == bk && r.user == u && isActiveStatus r.status) := by
              apply actCount_replace_le db.requests hnd request
                { request with
                  status := RequestStatus.rejected
                  rejectedBy := some librarianId
                  rejectedAt := some now
                  rejectionReason :=
                    if reason = "" then "No reason provided" else reason } hmem rfl rfl
              intro hc
              exact absurd hc (by simp [isActiveStatus])
          _ ≤ 1 := hA bk u
      · rw [ids_map_preserved db.requests _ ?hrep]
        case hrep =>
          intro r
          by_cases h1 : (r.id == request.id) = true
          · rw [if_pos h1]
            exact (beq_iff_eq.mp h1).symm
          · rw [if_neg h1]

/-- `issueBook` does not create requests and keeps per-pair active counts
bounded. -/
theorem amoa_issue (librarianId requestId now : Nat) (db : LibraryDB)
    (res : BookRequest) (db' : LibraryDB) (hnd : uniqueIds db)
    (h : issueBook librarianId requestId now db = .ok (res, db')) :
    (atMostOneActive db → atMostOneActive db') ∧
    db'.requests.map (fun r => r.id) = db.requests.map (fun r => r.id) := by
  unfold issueBook at h
  split at h
  · exact Except.noConfusion h
  · rename_i request heq
    split at h
    · exact Except.noConfusion h
    · rename_i hs
      split at h
      · exact Except.noConfusion h
      · split at h
        · exact Except.noConfusion h
        · rename_i book hfb
          split at h
          · exact Except.noConfusion h
          · obtain ⟨hmem, hid⟩ := findRequest_mem db requestId request heq
            dsimp only [saveBook, saveRequest] at h
            simp only [Except.ok.injEq, Prod.mk.injEq] at h
            obtain ⟨h1, h2⟩ := h
            subst h2
            constructor
            · intro hA bk u
              show (db.requests.map _).countP _ ≤ 1
              calc (db.requests.map _).countP _
                  ≤ db.requests.countP
                    (fun r => r.book == bk && r.user == u && isActiveStatus r.status) := by
                    apply actCount_replace_le db.requests hnd request
                      { request with
                        status := RequestStatus.issued
                        issuedBy := some librarianId
                        issuedAt := some now
                        dueDate := some (now + book.borrowDurationDays
                          * 24 * 60 * 60 * 1000) } hmem rfl rfl
                    intro _
                    rw [not_not.mp hs]
                    rfl
                _ ≤ 1 := hA bk u
            · rw [ids_map_preserved db.requests _ ?hrep]
              case hrep =>
                intro r
                by_cases h1 : (r.id == request.id) = true
                · rw [if_pos h1]
                  exact (beq_iff_eq.mp h1).symm
                · rw [if_neg h1]

/-- `returnBook` does not create requests and keeps per-pair active
counts bounded. -/
theorem amoa_return (librarianId requestId now : Nat) (db : LibraryDB)
    (res : BookRequest) (db' : LibraryDB) (hnd : uniqueIds db)
    (h : returnBook librarianId requestId now db = .ok (res, db')) :
    (atMostOneActive db → atMostOneActive db') ∧
    db'.requests.map (fun r => r.id) = db.requests.map (fun r => r.id) := by
  unfold returnBook at h
  split at h
  · exact Except.noConfusion h
  · rename_i request heq
    split at h
    · exact Except.noConfusion h
    · split at h
      · exact Except.noConfusion h
      · rename_i book hfb
        obtain ⟨hmem, hid⟩ := findRequest_mem db requestId request heq
        dsimp only [saveBook, saveRequest] at h
        simp only [Except.ok.injEq, Prod.mk.injEq] at h
        obtain ⟨h1, h2⟩ := h
        subst h2
        have hrep : ∀ r : BookRequest,
            ((if r.id == request.id then
              ({ request with
                status := RequestStatus.returned
                returnedAt := some now
                returnAcceptedBy := some librarianId } : BookRequest) else r)).id
              = r.id := by
          intro r
          by_cases h1 : (r.id == request.id) = true
          · rw [if_pos h1]
            exact (beq_iff_eq.mp h1).symm
          · rw [if_neg h1]
        have hnd2 : uniqueIds
            { books := db.books.map (fun p =>
                if p.1 == request.book then
                  (p.1, bookPreSave { book with physical :=
                    { book.physical with
                      availableCopies := book.physical.availableCopies + 1 } })
                else p)
              requests := db.requests.map (fun x =>
                if x.id == request.id then
                  { request with
                    status := RequestStatus.returned
                    returnedAt := some now
                    returnAcceptedBy := some librarianId }
                else x) } := by
          unfold uniqueIds
          dsimp only []
          rw [ids_map_preserved db.requests _ hrep]
          exact hnd
        have hp := amoa_promote request.book now
          { books := db.books.map (fun p =>
              if p.1 == request.book then
                (p.1, bookPreSave { book with physical :=
                  { book.physical with
                    availableCopies := book.physical.availableCopies + 1 } })
              else p)
            requests := db.requests.map (fun x =>
              if x.id == request.id then
                { request with
                  status := RequestStatus.returned
                  returnedAt := some now
                  returnAcceptedBy := some librarianId }
              else x) } hnd2
        constructor
        · intro hA
          apply hp.1
          intro bk u
          show (db.requests.map _).countP _ ≤ 1
          calc (db.requests.map _).countP _
              ≤ db.requests.countP
                (fun r => r.book == bk && r.user == u && isActiveStatus r.status) := by
                apply actCount_replace_le db.requests hnd request
                  { request with
                    status := RequestStatus.returned
                    returnedAt := some now
                    returnAcceptedBy := some librarianId } hmem rfl rfl
                intro hc
                exact absurd hc (by simp [isActiveStatus])
            _ ≤ 1 := hA bk u
        · rw [hp.2]
          dsimp only []
          rw [ids_map_preserved db.requests _ hrep]

/-- Appending a request whose (book, user) pair currently has no active
request keeps all per-pair active counts at most one. -/
theorem amoa_append_count (rs : List BookRequest) (req : BookRequest)
    (hzero : rs.countP (fun r => r.book == req.book && r.user == req.user
      && isActiveStatus r.status) = 0)
    (hA : ∀ b u, rs.countP (fun r => r.book == b && r.user == u
      && isActiveStatus r.status) ≤ 1) :
    ∀ b u, (rs ++ [req]).countP (fun r => r.book == b && r.user == u
      && isActiveStatus r.status) ≤ 1 := by
  intro b u
  rw [countP_append_singleton]
  by_cases hP : (req.book == b && req.user == u && isActiveStatus req.status) = true
  · have hP' := hP
    simp only [Bool.and_eq_true, beq_iff_eq] at hP'
    obtain ⟨⟨hb, hu⟩, hac⟩ := hP'
    subst hb
    subst hu
    rw [hzero, if_pos hP]
  · have hPf : (req.book == b && req.user == u && isActiveStatus req.status) = false := by
      cases hq : (req.book == b && req.user == u && isActiveStatus req.status)
      · rfl
      · exact absurd hq hP
    rw [hPf]
    try rw [if_neg Bool.false_ne_true]
    have := hA b u
    omega

/-- `createRequest`, when it succeeds, keeps per-pair active counts at
most one. -/
theorem amoa_create (userId bookId newId : Nat) (requestType : RequestType)
    (userNote : String) (db : LibraryDB) (req : BookRequest) (db' : LibraryDB)
    (h : createRequest userId bookId requestType userNote newId db = .ok (req, db')) :
    atMostOneActive db → atMostOneActive db' := by
  intro hA
  unfold createRequest at h
  split at h
  · exact Except.noConfusion h
  · rename_i book heq
    split at h
    · exact Except.noConfusion h
    split at h
    · exact Except.noConfusion h
    split at h
    · exact Except.noConfusion h
    split at h
    · exact Except.noConfusion h
    split at h
    · exact Except.noConfusion h
    · rename_i hdup
      have hzero : db.requests.countP (fun r =>
          r.book == bookId && r.user == userId && isActiveStatus r.status) = 0 := by
        rw [List.countP_eq_zero]
        intro r hr hc
        exact (List.find?_eq_none.mp hdup) r hr hc
      split at h
      · simp only [Except.ok.injEq, Prod.mk.injEq] at h
        obtain ⟨h1, h2⟩ := h
        subst h2
        intro bk u
        exact amoa_append_count db.requests _ hzero hA bk u
      · dsimp only [] at h
        split at h
        · simp only [Except.ok.injEq, Prod.mk.injEq] at h
          obtain ⟨h1, h2⟩ := h
          subst h2
          intro bk u
          exact amoa_append_count db.requests _ hzero hA bk u
        · simp only [Except.ok.injEq, Prod.mk.injEq] at h
          obtain ⟨h1, h2⟩ := h
          subst h2
          intro bk u
          exact amoa_append_count db.requests _ hzero hA bk u

/-- A duplicate active request makes `createRequest` fail with the
duplicate-active error (all earlier guards passing). -/
theorem create_dup_rejected (userId bookId newId : Nat)
    (requestType : RequestType) (userNote : String)
    (db : LibraryDB) (book : Book) (ex : BookRequest)
    (hbook : findBook db bookId = some book)
    (hactive : book.isActive = true)
    (hg1 : ¬(requestType = .borrow ∧ book.bookType = .digital))
    (hg2 : ¬(requestType = .download ∧ book.bookType = .physical))
    (hg3 : ¬(requestType = .download ∧ book.digital.fileUrl = ""))
    (hex : ex ∈ db.requests) (hexb : ex.book = bookId) (hexu : ex.user = userId)
    (hexa : isActiveStatus ex.status = true) :
    ∃ ex', ex' ∈ db.requests ∧ ex'.book = bookId ∧ ex'.user = userId ∧
      isActiveStatus ex'.status = true ∧
      createRequest userId bookId requestType userNote newId db =
        .error ⟨"You already have an active " ++ statusToString ex'.status
          ++ " request for this book.", 400⟩ := by
  cases hf : db.requests.find? (fun r =>
      r.book == bookId && r.user == userId && isActiveStatus r.status) with
  | none =>
    exfalso
    apply List.find?_eq_none.mp hf ex hex
    simp only [Bool.and_eq_true, beq_iff_eq]
    exact ⟨⟨hexb, hexu⟩, hexa⟩
  | some e' =>
    have hp := List.find?_some hf
    have hp' : (e'.book == bookId && e'.user == userId
        && isActiveStatus e'.status) = true := hp
    simp only [Bool.and_eq_true, beq_iff_eq] at hp'
    exact ⟨e', List.mem_of_find?_eq_some hf, hp'.1.1, hp'.1.2, hp'.2,
      createRequest_run_duplicate userId bookId newId requestType userNote db book e'
        hbook hactive hg1 hg2 hg3 hf⟩

/-- Claim C6: at most one Reservation per (Resource, requester) pair is
ever in a non-terminal state: `createRequest` rejects a duplicate active
request with the duplicate-active error, a successful `createRequest`
keeps every per-pair active count at most one, and every other operation
creates no Reservation (the id list is unchanged) and also keeps the
counts at most one. -/
theorem claim_C6_one_active_per_pair :
    (∀ (userId bookId newId : Nat) (requestType : RequestType) (userNote : String)
        (db : LibraryDB) (book : Book) (ex : BookRequest),
      findBook db bookId = some book → book.isActive = true →
      ¬(requestType = .borrow ∧ book.bookType = .digital) →
      ¬(requestType = .download ∧ book.bookType = .physical) →
      ¬(requestType = .download ∧ book.digital.fileUrl = "") →
      ex ∈ db.requests → ex.book = bookId → ex.user = userId →
      isActiveStatus ex.status = true →
      ∃ ex', ex' ∈ db.requests ∧ ex'.book = bookId ∧ ex'.user = userId ∧
        isActiveStatus ex'.status = true ∧
        createRequest userId bookId requestType userNote newId db =
          .error ⟨"You already have an active " ++ statusToString ex'.status
            ++ " request for this book.", 400⟩) ∧
    (∀ (userId bookId newId : Nat) (requestType : RequestType) (userNote : String)
        (db : LibraryDB) (req : BookRequest) (db' : LibraryDB),
      createRequest userId bookId requestType userNote newId db = .ok (req, db') →
      atMostOneActive db → atMostOneActive db') ∧
    (∀ (userId requestId : Nat) (db : LibraryDB) (msg : String) (db' : LibraryDB),
      uniqueIds db → cancelRequest userId requestId db = .ok (msg, db') →
      (atMostOneActive db → atMostOneActive db') ∧
      db'.requests.map (fun r => r.id) = db.requests.map (fun r => r.id)) ∧
    (∀ (librarianId requestId now : Nat) (db : LibraryDB)
        (res : BookRequest) (db' : LibraryDB),
      uniqueIds db → approveRequest librarianId requestId now db = .ok (res, db') →
      (atMostOneActive db → atMostOneActive db') ∧
      db'.requests.map (fun r => r.id) = db.requests.map (fun r => r.id)) ∧
    (∀ (librarianId requestId : Nat) (reason : String) (now : Nat) (db : LibraryDB)
        (res : BookRequest) (db' : LibraryDB),
      uniqueIds db → rejectRequest librarianId requestId reason now db = .ok (res, db') →
      (atMostOneActive db → atMostOneActive db') ∧
      db'.requests.map (fun r => r.id) = db.requests.map (fun r => r.id)) ∧
    (∀ (librarianId requestId now : Nat) (db : LibraryDB)
        (res : BookRequest) (db' : LibraryDB),
      uniqueIds db → issueBook librarianId requestId now db = .ok (res, db') →
      (atMostOneActive db → atMostOneActive db') ∧
      db'.requests.map (fun r => r.id) = db.requests.map (fun r => r.id)) ∧
    (∀ (librarianId requestId now : Nat) (db : LibraryDB)
        (res : BookRequest) (db' : LibraryDB),
      uniqueIds db → returnBook librarianId requestId now db = .ok (res, db') →
      (atMostOneActive db → atMostOneActive db') ∧
      db'.requests.map (fun r => r.id) = db.requests.map (fun r => r.id)) := by
  refine ⟨?_, ?_, ?_, ?_, ?_, ?_, ?_⟩
  · intro userId bookId newId requestType userNote db book ex h1 h2 h3 h4 h5 h6 h7 h8 h9
    exact create_dup_rejected userId bookId newId requestType userNote db book ex
      h1 h2 h3 h4 h5 h6 h7 h8 h9
  · intro userId bookId newId requestType userNote db req db' h
    exact amoa_create userId bookId newId requestType userNote db req db' h
  · intro userId requestId db msg db' hnd h
    exact amoa_cancel userId requestId db msg db' hnd h
  · intro librarianId requestId now db res db' hnd h
    exact amoa_approve librarianId requestId now db res db' hnd h
  · intro librarianId requestId reason now db res db' hnd h
    exact amoa_reject librarianId requestId reason now db res db' hnd h
  · intro librarianId requestId now db res db' hnd h
    exact amoa_issue librarianId requestId now db res db' hnd h
  · intro librarianId requestId now db res db' hnd h
    exact amoa_return librarianId requestId now db res db' hnd h

/-- Witness for C6: the duplicate-active rejection on a concrete state
with one pending request, and count preservation through a concrete
approval. -/
theorem claim_C6_witness :
    (∃ ex', ex' ∈ [({ id := 1, book := 1, user := 2
                      requestType := RequestType.borrow
                      status := RequestStatus.pending } : BookRequest)] ∧
      ex'.book = 1 ∧ ex'.user = 2 ∧ isActiveStatus ex'.status = true ∧
      createRequest 2 1 .borrow "" 7
        { books := [(1, { bookType := BookType.physical
                          physical := { totalCopies := 1, availableCopies := 1 } })]
          requests := [{ id := 1, book := 1, user := 2
                         requestType := RequestType.borrow
                         status := RequestStatus.pending }] } =
        .error ⟨"You already have an active " ++ statusToString ex'.status
          ++ " request for this book.", 400⟩) ∧
    (atMostOneActive
      { books := [(1, { bookType := BookType.physical
                        physical := { totalCopies := 1, availableCopies := 1 } })]
        requests := [{ id := 1, book := 1, user := 2
                       requestType := RequestType.borrow
                       status := RequestStatus.approved, approvedBy := some 9
                       approvedAt := some 0 }] }) := by
  constructor
  · exact claim_C6_one_active_per_pair.1 2 1 7 .borrow ""
      { books := [(1, { bookType := BookType.physical
                        physical := { totalCopies := 1, availableCopies := 1 } })]
        requests := [{ id := 1, book := 1, user := 2
                       requestType := RequestType.borrow
                       status := RequestStatus.pending }] }
      { bookType := BookType.physical
        physical := { totalCopies := 1, availableCopies := 1 } }
      { id := 1, book := 1, user := 2, requestType := RequestType.borrow
        status := RequestStatus.pending }
      rfl rfl (by decide) (by decide) (by decide)
      (by simp) rfl rfl rfl
  · exact (claim_C6_one_active_per_pair.2.2.2.1 9 1 0
      { books := [(1, { bookType := BookType.physical
                        physical := { totalCopies := 1, availableCopies := 1 } })]
        requests := [{ id := 1, book := 1, user := 2
                       requestType := RequestType.borrow
                       status := RequestStatus.pending }] }
      { id := 1, book := 1, user := 2, requestType := RequestType.borrow
        status := RequestStatus.approved, approvedBy := some 9, approvedAt := some 0 }
      _ (by decide) (by rfl)).1
      (fun b u => List.countP_le_length _)

/-- With unique ids, a member is what `findRequest` returns for its id. -/
theorem findRequest_of_mem (db : LibraryDB) (hnd : uniqueIds db)
    (r : BookRequest) (hr : r ∈ db.requests) : findRequest db r.id = some r := by
  unfold findRequest
  cases hf : db.requests.find? (fun x => x.id == r.id) with
  | none =>
    exfalso
    exact List.find?_eq_none.mp hf r hr (beq_self_eq_true r.id)
  | some r0 =>
    have h0 := List.find?_some hf
    have h1 : (r0.id == r.id) = true := h0
    rw [mem_id_eq db.requests hnd r0 r (List.mem_of_find?_eq_some hf) hr
      (beq_iff_eq.mp h1)]

/-- Claim C2: returning an issued Reservation succeeds, strictly
increases `availableCopies` by 1, marks the Reservation `returned`, and —
when at least one Reservation of the Resource is waitlisted — promotes
exactly the position-1 waitlisted Reservation to `pending` with its
position cleared, while every other Reservation keeps its status. -/
theorem claim_C2_return_and_promote (librarianId requestId now : Nat)
    (db : LibraryDB) (request : BookRequest) (book : Book)
    (hnd : uniqueIds db)
    (hfind : findRequest db requestId = some request)
    (hst : request.status = .issued)
    (hbook : findBook db request.book = some book)
    (hinv : invInventory db)
    (hcontig : waitlistContiguous db request.book) :
    ∃ db', returnBook librarianId requestId now db
        = .ok ({ request with
                 status := .returned
                 returnedAt := some now
                 returnAcceptedBy := some librarianId }, db') ∧
      findBook db' request.book = some { book with physical :=
        { book.physical with
          availableCopies := book.physical.availableCopies + 1 } } ∧
      (1 ≤ wlCount db request.book →
        ∃ nx, nx ∈ db.requests ∧ nx.book = request.book ∧
          nx.status = .waitlisted ∧ nx.waitlistPosition = some 1 ∧
          findRequest db' nx.id = some { nx with
            status := .pending
            waitlistPosition := none
            waitlistNotifiedAt := some now } ∧
          (∀ r ∈ db.requests, r.id ≠ requestId → r.id ≠ nx.id →
            ∀ r' ∈ db'.requests, r'.id = r.id → r'.status = r.status)) ∧
      (wlCount db request.book = 0 →
        ∀ r ∈ db.requests, r.id ≠ requestId →
          ∀ r' ∈ db'.requests, r'.id = r.id → r'.status = r.status) := by
  obtain ⟨hmem, hid⟩ := findRequest_mem db requestId request hfind
  have hrun := returnBook_run librarianId requestId now db request book hfind hst hbook
  refine ⟨_, hrun, ?_, ?_, ?_⟩
  · -- the counter strictly increases: the pre-save clamp cannot fire
    rw [findBook_promote]
    obtain ⟨prb, hprb, hpr1, hpr2⟩ := findBook_mem db request.book book hbook
    have hb := hinv prb hprb
    have hissued : 1 ≤ issuedCount db prb.1 := by
      apply countP_ge_one _ _ request hmem
      rw [hpr1, hst]
      simp
    have hnoclamp : bookPreSave { book with physical :=
        { book.physical with
          availableCopies := book.physical.availableCopies + 1 } }
        = { book with physical :=
        { book.physical with
          availableCopies := book.physical.availableCopies + 1 } } := by
      unfold bookPreSave
      rw [if_neg]
      dsimp only []
      rw [hpr2] at hb
      omega
    have := findBook_replaced db request.book
      (bookPreSave { book with physical :=
        { book.physical with
          availableCopies := book.physical.availableCopies + 1 } })
      (db.requests.map (fun x =>
        if x.id == request.id then
          { request with
            status := RequestStatus.returned
            returnedAt := some now
            returnAcceptedBy := some librarianId }
        else x))
      book hbook
    rw [this, hnoclamp]
  · -- non-empty waitlist: exactly the position-1 request is promoted
    intro hwl
    have hcnt := contig_counts db request.book hcontig 1
    have hN : (1 : Int) ≤ (wlCount db request.book : Int) := by
      exact_mod_cast hwl
    rw [if_pos ⟨le_refl 1, hN⟩] at hcnt
    have hcnt2 : wlPosCountL (db.requests.map (fun x =>
        if x.id == request.id then
          { request with
            status := RequestStatus.returned
            returnedAt := some now
            returnAcceptedBy := some librarianId }
        else x)) request.book 1 = 1 := by
      rw [wlPosCountL_replace_nonwl db.requests hnd request _ hmem
        (by rw [hst]; exact fun hc => RequestStatus.noConfusion hc)
        (fun hc => RequestStatus.noConfusion hc)]
      exact hcnt
    cases hf2 : (db.requests.map (fun x =>
        if x.id == request.id then
          { request with
            status := RequestStatus.returned
            returnedAt := some now
            returnAcceptedBy := some librarianId }
        else x)).find? (fun r =>
          r.book == request.book && r.status == RequestStatus.waitlisted
            && r.waitlistPosition == some 1) with
    | none =>
      exfalso
      have hmem1 : ∃ a ∈ (db.requests.map (fun x =>
          if x.id == request.id then
            { request with
              status := RequestStatus.returned
              returnedAt := some now
              returnAcceptedBy := some librarianId }
          else x)),
          (wlMatch request.book a && a.waitlistPosition == some 1) = true := by
        apply List.countP_pos_iff.mp
        unfold wlPosCountL at hcnt2
        omega
      obtain ⟨a, hamem, hap⟩ := hmem1
      exact List.find?_eq_none.mp hf2 a hamem hap
    | some nx2 =>
      have hnx2mem := List.mem_of_find?_eq_some hf2
      have hnx2pred := List.find?_some hf2
      have hnx2p : (nx2.book == request.book
          && nx2.status == RequestStatus.waitlisted
          && nx2.waitlistPosition == some 1) = true := hnx2pred
      simp only [Bool.and_eq_true, beq_iff_eq] at hnx2p
      obtain ⟨nx0, hnx0, hnx0eq⟩ := List.mem_map.mp hnx2mem
      have hnx0ne : (nx0.id == request.id) = false := by
        cases hq : (nx0.id == request.id)
        · rfl
        · exfalso
          rw [if_pos hq] at hnx0eq
          rw [← hnx0eq] at hnx2p
          simp at hnx2p
      rw [if_neg (by rw [hnx0ne]; exact Bool.false_ne_true)] at hnx0eq
      subst hnx0eq
      refine ⟨nx0, hnx0, hnx2p.1.1, hnx2p.1.2, hnx2p.2, ?_, ?_⟩
      · -- the promoted request is stored pending with its position cleared
        rw [promoteWaitlist_apply _ _ _ nx0 hf2]
        rw [List.map_map]
        rw [findRequest_through_map
          { books := db.books.map (fun p =>
              if p.1 == request.book then
                (p.1, bookPreSave { book with physical :=
                  { book.physical with
                    availableCopies := book.physical.availableCopies + 1 } })
              else p)
            requests := db.requests.map (fun x =>
              if x.id == request.id then
                { request with
                  status := RequestStatus.returned
                  returnedAt := some now
                  returnAcceptedBy := some librarianId }
              else x) } _ _ ?hc1 nx0.id]
        case hc1 =>
          intro r
          simp only [Function.comp_apply]
          by_cases h1 : (r.id == nx0.id) = true
          · rw [if_pos h1]
            split <;> exact (beq_iff_eq.mp h1).symm
          · rw [if_neg h1]
            split <;> rfl
        have hdb2 : findRequest
            { books := db.books.map (fun p =>
                if p.1 == request.book then
                  (p.1, bookPreSave { book with physical :=
                    { book.physical with
                      availableCopies := book.physical.availableCopies + 1 } })
                else p)
              requests := db.requests.map (fun x =>
                if x.id == request.id then
                  { request with
                    status := RequestStatus.returned
                    returnedAt := some now
                    returnAcceptedBy := some librarianId }
                else x) } nx0.id = some nx0 := by
          rw [findRequest_through_map db _ _ ?hc2 nx0.id]
          case hc2 =>
            intro r
            by_cases h1 : (r.id == request.id) = true
            · rw [if_pos h1]
              exact (beq_iff_eq.mp h1).symm
            · rw [if_neg h1]
          rw [findRequest_of_mem db hnd nx0 hnx0]
          simp only [Option.map_some']
          rw [if_neg (by rw [hnx0ne]; exact Bool.false_ne_true)]
        rw [hdb2]
        simp only [Option.map_some', Function.comp_apply]
        rw [if_pos (beq_self_eq_true nx0.id)]
        have hguard : (({ nx0 with
            status := RequestStatus.pending
            waitlistPosition := none
            waitlistNotifiedAt := some now } : BookRequest).book == request.book
            && ({ nx0 with
              status := RequestStatus.pending
              waitlistPosition := none
              waitlistNotifiedAt := some now } : BookRequest).status
              == RequestStatus.waitlisted) = false := by
          simp
        rw [if_neg (by rw [hguard]; exact Bool.false_ne_true)]
      · -- everyone except the returned and the promoted request keeps
        -- its status
        intro r hr hrid1 hrid2 r' hr' hrid'
        rw [promoteWaitlist_apply _ _ _ nx0 hf2] at hr'
        simp only [List.map_map] at hr'
        have hFid : ∀ x : BookRequest,
            (((fun r : BookRequest =>
              if r.book == request.book && r.status == RequestStatus.waitlisted then
                { r with waitlistPosition := r.waitlistPosition.map (fun q => q - 1) }
              else r) ∘ ((fun x : BookRequest =>
                if x.id == nx0.id then
                  { nx0 with
                    status := RequestStatus.pending
                    waitlistPosition := none
                    waitlistNotifiedAt := some now } else x) ∘ (fun x : BookRequest =>
                if x.id == request.id then
                  { request with
                    status := RequestStatus.returned
                    returnedAt := some now
                    returnAcceptedBy := some librarianId } else x))) x).id = x.id := by
          intro x
          simp only [Function.comp_apply]
          by_cases h1 : (x.id == request.id) = true
          · rw [if_pos h1]
            by_cases h2 : ((request.id : Nat) == nx0.id) = true
            · rw [if_pos h2]
              split <;> exact (beq_iff_eq.mp h2).symm.trans (beq_iff_eq.mp h1).symm
            · rw [if_neg h2]
              split <;> exact (beq_iff_eq.mp h1).symm
          · rw [if_neg h1]
            by_cases h2 : (x.id == nx0.id) = true
            · rw [if_pos h2]
              split <;> exact (beq_iff_eq.mp h2).symm
            · rw [if_neg h2]
              split <;> rfl
        have hr'eq := mem_map_unique db.requests hnd _ hFid r hr r' hr' hrid'
        subst hr'eq
        simp only [Function.comp_apply]
        rw [if_neg (fun hc : (r.id == request.id) = true =>
          hrid1 ((beq_iff_eq.mp hc).trans hid))]
        rw [if_neg (fun hc : (r.id == nx0.id) = true =>
          hrid2 (beq_iff_eq.mp hc))]
        split <;> rfl
  · -- empty waitlist: nobody is promoted, only the returned request
    -- changes status
    intro hwl0 r hr hrid1 r' hr' hrid'
    have hcnt0 : wlCountL (db.requests.map (fun x =>
        if x.id == request.id then
          { request with
            status := RequestStatus.returned
            returnedAt := some now
            returnAcceptedBy := some librarianId }
        else x)) request.book = 0 := by
      rw [wlCountL_replace_nonwl db.requests hnd request _ hmem
        (by rw [hst]; exact fun hc => RequestStatus.noConfusion hc)
        (fun hc => RequestStatus.noConfusion hc)]
      exact hwl0
    have hf2 : (db.requests.map (fun x =>
        if x.id == request.id then
          { request with
            status := RequestStatus.returned
            returnedAt := some now
            returnAcceptedBy := some librarianId }
        else x)).find? (fun r =>
          r.book == request.book && r.status == RequestStatus.waitlisted
            && r.waitlistPosition == some 1) = none := by
      rw [List.find?_eq_none]
      intro a ha hc
      have hwla : wlMatch request.book a = true := by
        unfold wlMatch
        simp only [Bool.and_eq_true] at hc ⊢
        exact hc.1
      have : 1 ≤ wlCountL (db.requests.map (fun x =>
          if x.id == request.id then
            { request with
              status := RequestStatus.returned
              returnedAt := some now
              returnAcceptedBy := some librarianId }
          else x)) request.book := by
        apply countP_ge_one _ _ a ha hwla
      omega
    rw [promoteWaitlist_none _ _ _ hf2] at hr'
    have hFid : ∀ x : BookRequest,
        ((fun x : BookRequest =>
          if x.id == request.id then
            { request with
              status := RequestStatus.returned
              returnedAt := some now
              returnAcceptedBy := some librarianId } else x) x).id = x.id := by
      intro x
      beta_reduce
      by_cases h1 : (x.id == request.id) = true
      · rw [if_pos h1]
        exact (beq_iff_eq.mp h1).symm
      · rw [if_neg h1]
    have hr'eq := mem_map_unique db.requests hnd _ hFid r hr r' hr' hrid'
    subst hr'eq
    beta_reduce
    rw [if_neg (fun hc : (r.id == request.id) = true =>
      hrid1 ((beq_iff_eq.mp hc).trans hid))]

/-- Witness for C2: a return with one waitlisted request promotes it. -/
theorem claim_C2_witness :
    ∃ db', returnBook 9 1 0
        { books := [(1, { bookType := BookType.physical
                          physical := { totalCopies := 2, availableCopies := 0 } })]
          requests := [{ id := 1, book := 1, user := 2
                         requestType := RequestType.borrow
                         status := RequestStatus.issued },
                       { id := 2, book := 1, user := 3
                         requestType := RequestType.borrow
                         status := RequestStatus.waitlisted
                         waitlistPosition := some 1 }] }
        = .ok ({ id := 1, book := 1, user := 2
                 requestType := RequestType.borrow
                 status := RequestStatus.returned, returnedAt := some 0
                 returnAcceptedBy := some 9 }, db') ∧
      findBook db' 1 = some { bookType := BookType.physical
                              physical := { totalCopies := 2, availableCopies := 0 + 1 } } ∧
      (1 ≤ wlCount
          { books := [(1, { bookType := BookType.physical
                            physical := { totalCopies := 2, availableCopies := 0 } })]
            requests := [{ id := 1, book := 1, user := 2
                           requestType := RequestType.borrow
                           status := RequestStatus.issued },
                         { id := 2, book := 1, user := 3
                           requestType := RequestType.borrow
                           status := RequestStatus.waitlisted
                           waitlistPosition := some 1 }] } 1 →
        ∃ nx, nx ∈ [({ id := 1, book := 1, user := 2
                       requestType := RequestType.borrow
                       status := RequestStatus.issued } : BookRequest),
                    { id := 2, book := 1, user := 3
                      requestType := RequestType.borrow
                      status := RequestStatus.waitlisted
                      waitlistPosition := some 1 }] ∧ nx.book = 1 ∧
          nx.status = .waitlisted ∧ nx.waitlistPosition = some 1 ∧
          findRequest db' nx.id = some { nx with
            status := .pending
            waitlistPosition := none
            waitlistNotifiedAt := some 0 } ∧
          (∀ r ∈ [({ id := 1, book := 1, user := 2
                     requestType := RequestType.borrow
                     status := RequestStatus.issued } : BookRequest),
                  { id := 2, book := 1, user := 3
                    requestType := RequestType.borrow
                    status := RequestStatus.waitlisted
                    waitlistPosition := some 1 }], r.id ≠ 1 → r.id ≠ nx.id →
            ∀ r' ∈ db'.requests, r'.id = r.id → r'.status = r.status)) ∧
      (wlCount
          { books := [(1, { bookType := BookType.physical
                            physical := { totalCopies := 2, availableCopies := 0 } })]
            requests := [{ id := 1, book := 1, user := 2
                           requestType := RequestType.borrow
                           status := RequestStatus.issued },
                         { id := 2, book := 1, user := 3
                           requestType := RequestType.borrow
                           status := RequestStatus.waitlisted
                           waitlistPosition := some 1 }] } 1 = 0 →
        ∀ r ∈ [({ id := 1, book := 1, user := 2
                  requestType := RequestType.borrow
                  status := RequestStatus.issued } : BookRequest),
               { id := 2, book := 1, user := 3
                 requestType := RequestType.borrow
                 status := RequestStatus.waitlisted
                 waitlistPosition := some 1 }], r.id ≠ 1 →
          ∀ r' ∈ db'.requests, r'.id = r.id → r'.status = r.status) :=
  claim_C2_return_and_promote 9 1 0
    { books := [(1, { bookType := BookType.physical
                      physical := { totalCopies := 2, availableCopies := 0 } })]
      requests := [{ id := 1, book := 1, user := 2
                     requestType := RequestType.borrow
                     status := RequestStatus.issued },
                   { id := 2, book := 1, user := 3
                     requestType := RequestType.borrow
                     status := RequestStatus.waitlisted
                     waitlistPosition := some 1 }] }
    { id := 1, book := 1, user := 2
      requestType := RequestType.borrow
      status := RequestStatus.issued }
    { bookType := BookType.physical
      physical := { totalCopies := 2, availableCopies := 0 } }
    (by decide) rfl rfl rfl (by decide) (by decide)
